import Mathlib

/-!
# Multi-client TCP echo server (`main.cpp`): shallow embedding and verification

The program is a Winsock echo server.  Its functions are embedded as Lean
functions over explicit environments:

* every library call whose result the program inspects (`send`, `recv`,
  `getnameinfo`, `WSAStartup`, `socket`, `bind`, `listen`, `accept`) takes its
  result from a finite script carried by the environment, one entry per call;
* every `g_running.load()` takes its value from a script of booleans, so the
  shutdown request may arrive at any load, and the test of `g_listenSocket` at
  line 110 of `main` sees the global as the control events delivered since
  line 109 have left it;
* every function returns the trace of the operations it performed, together
  with a flag or option telling whether it returned; a script that ends while
  the function still needs a result leaves the function blocked in that call
  (not returned), with the trace performed so far.

C `int` values are `Int`; under the documented contract of `send` and `recv`
every value stays within `[-1, 4096]`, so no 32-bit wrap-around is involved.

The globals `g_running` and `g_listenSocket` are shared with
`consoleCtrlHandler`, which runs on another thread.  The handler is a function
on the state of the globals; its interleaving with the statements of `main` is
modelled by a step machine on that state.
-/

namespace EchoServer

/-! ## Constants and basic types -/

/-- Bytes of a `char` buffer; the program never inspects their value. -/
abbrev Byte := Nat

/-- Winsock `SOCKET` handles (`UINT_PTR`, an unsigned integer type). -/
abbrev SOCKET := Nat

/-- Winsock `INVALID_SOCKET`, defined in `winsock2.h` as the all-ones handle
`(SOCKET)(~0)`; the value is the 64-bit one, and nothing below depends on it. -/
def INVALID_SOCKET : SOCKET := 2 ^ 64 - 1

/-- Winsock `SOCKET_ERROR`, defined in `winsock2.h` as `(-1)`. -/
def SOCKET_ERROR : Int := -1

/-- Size of the transfer buffer, `constexpr int BUF_SIZE = 4096;` in `clientThread`. -/
def BUF_SIZE : Int := 4096

/-! ## `sendAll` -/

/-- One call `send(s, data + total, len - total, 0)`: the offset `total`, the
requested length `len - total`, the bytes `data[total .. len)` the call may
read, and the value the call returned. -/
structure SendCall where
  offset : Int
  len : Int
  window : List Byte
  ret : Int
  deriving DecidableEq

/-- Outcome of running `sendAll` against a script of `send` results:
`result = some b` when `sendAll` returned `b`, `none` when the script ended
while the loop was still asking for a `send` result; `calls` are the `send`
calls made, in order; `rest` is the unconsumed part of the script. -/
structure SendAllRun where
  result : Option Bool
  calls : List SendCall
  rest : List Int
  deriving DecidableEq

/-- The loop of `sendAll` (lines 35-41), started with the running total
`total`; `sends` scripts the values returned by the successive `send` calls. -/
def sendAllLoop (data : List Byte) (len : Int) : List Int → Int → SendAllRun
  | [], total =>
    if total < len then { result := none, calls := [], rest := [] }
    else { result := some true, calls := [], rest := [] }
  | sent :: sends, total =>
    if total < len then
      let call : SendCall :=
        { offset := total, len := len - total,
          window := (data.drop total.toNat).take (len - total).toNat, ret := sent }
      if sent = SOCKET_ERROR then { result := some false, calls := [call], rest := sends }
      else if sent = 0 then { result := some false, calls := [call], rest := sends }
      else
        let r := sendAllLoop data len sends (total + sent)
        { r with calls := call :: r.calls }
    else { result := some true, calls := [], rest := sent :: sends }

/-- The function `sendAll(s, data, len)` (lines 33-42): `int total = 0;` then the loop. -/
def sendAll (data : List Byte) (len : Int) (sends : List Int) : SendAllRun :=
  sendAllLoop data len sends 0

/-- Bytes a `send` call accepted: the first `ret` bytes of the window it was
given when it returned a positive count, none otherwise. -/
def SendCall.accepted (c : SendCall) : List Byte :=
  c.window.take c.ret.toNat

/-- Contract of `send`: the call returns `SOCKET_ERROR`, or a count between
`0` and the requested length. -/
def SendCall.WellBehaved (c : SendCall) : Prop :=
  c.ret = SOCKET_ERROR ∨ (0 ≤ c.ret ∧ c.ret ≤ c.len)

instance (c : SendCall) : Decidable c.WellBehaved := by
  unfold SendCall.WellBehaved; infer_instance

/-- Concatenation of the bytes accepted by a sequence of `send` calls. -/
def acceptedBytes : List SendCall → List Byte
  | [] => []
  | c :: cs => c.accepted ++ acceptedBytes cs

/-! ## `clientThread` -/

/-- Result of one `recv(clientSocket, buf, BUF_SIZE, 0)`: `data chunk` stored
`chunk` at `buf[0 ..)` and returned its length, `closed` returned `0`,
`error` returned `SOCKET_ERROR`. -/
inductive RecvResult where
  | data (chunk : List Byte)
  | closed
  | error
  deriving DecidableEq

/-- The `int` returned by `recv`. -/
def RecvResult.bytes : RecvResult → Int
  | .data chunk => chunk.length
  | .closed => 0
  | .error => SOCKET_ERROR

/-- Content of `buf` after the `recv` call: the received chunk overwrites the
front of the buffer, the bytes behind it are left as they were. -/
def RecvResult.store : RecvResult → List Byte → List Byte
  | .data chunk, buf => chunk ++ buf.drop chunk.length
  | .closed, buf => buf
  | .error, buf => buf

/-- Lines written through `logLine`.  `clientConnected resolved` is the
"[+] Client connected" line, with the resolved host and service when
`getnameinfo` succeeded and with the numeric address otherwise; the lines
built by `lastWsaError` are identified by the call they report. -/
inductive LogLine where
  | clientConnected (resolved : Bool)
  | clientDisconnected
  | recvFailed
  | sendFailed
  | listening
  | acceptFailed
  | shuttingDown
  deriving DecidableEq

/-- Operations performed by `clientThread`, in program order. -/
inductive ClientOp where
  | log (line : LogLine)
  | load (running : Bool)
  | recv (r : RecvResult)
  | send (c : SendCall)
  | closesocket
  deriving DecidableEq

/-- Environment of one `clientThread`: the value returned by `getnameinfo`,
the initial content of the uninitialised `buf`, and the scripts of the values
seen by `g_running.load()`, returned by `recv` and returned by `send`. -/
structure ClientEnv where
  getnameinfo : Int
  buf : List Byte
  running : List Bool
  recvs : List RecvResult
  sends : List Int

/-- A run of `clientThread` or of its loop: whether it was left (the function
returned, the loop was exited) and the operations performed. -/
structure ClientRun where
  returned : Bool
  trace : List ClientOp
  deriving DecidableEq

/-- The loop `while (g_running.load()) { ... }` of `clientThread` (lines 60-77). -/
def clientLoop : List Bool → List Byte → List RecvResult → List Int → ClientRun
  | [], _, _, _ => { returned := false, trace := [] }
  | false :: _, _, _, _ => { returned := true, trace := [.load false] }
  | true :: _, _, [], _ => { returned := false, trace := [.load true] }
  | true :: running, buf, r :: recvs, sends =>
    let bytes := r.bytes
    if bytes = 0 then
      { returned := true, trace := [.load true, .recv r, .log .clientDisconnected] }
    else if bytes = SOCKET_ERROR then
      { returned := true, trace := [.load true, .recv r, .log .recvFailed] }
    else
      let buf1 := r.store buf
      let s := sendAll buf1 bytes sends
      match s.result with
      | none =>
        { returned := false, trace := [.load true, .recv r] ++ s.calls.map .send }
      | some false =>
        { returned := true,
          trace := [.load true, .recv r] ++ s.calls.map .send ++ [.log .sendFailed] }
      | some true =>
        let next := clientLoop running buf1 recvs s.rest
        { returned := next.returned,
          trace := [.load true, .recv r] ++ s.calls.map .send ++ next.trace }

/-- The function `clientThread(clientSocket, clientAddr)` (lines 44-80): the
connection line, the echo loop, then `closesocket(clientSocket)`. -/
def clientThread (env : ClientEnv) : ClientRun :=
  let hello : ClientOp :=
    if env.getnameinfo = 0 then .log (.clientConnected true)
    else .log (.clientConnected false)
  let l := clientLoop env.running env.buf env.recvs env.sends
  if l.returned then { returned := true, trace := hello :: l.trace ++ [.closesocket] }
  else { returned := false, trace := hello :: l.trace }

/-- The `send` calls of a trace, in order. -/
def sendCalls : List ClientOp → List SendCall
  | [] => []
  | .send c :: ops => c :: sendCalls ops
  | _ :: ops => sendCalls ops

/-- Concatenation of all bytes accepted by `send` in a trace. -/
def sentBytes (trace : List ClientOp) : List Byte :=
  acceptedBytes (sendCalls trace)

/-- Concatenation of all bytes returned by `recv` in a trace. -/
def recvBytes : List ClientOp → List Byte
  | [] => []
  | .recv (.data chunk) :: ops => chunk ++ recvBytes ops
  | _ :: ops => recvBytes ops

/-! ## `consoleCtrlHandler` -/

/-- Console control event `CTRL_C_EVENT` of `wincon.h`. -/
def CTRL_C_EVENT : Nat := 0

/-- Console control event `CTRL_BREAK_EVENT` of `wincon.h`. -/
def CTRL_BREAK_EVENT : Nat := 1

/-- Console control event `CTRL_CLOSE_EVENT` of `wincon.h`. -/
def CTRL_CLOSE_EVENT : Nat := 2

/-- Console control event `CTRL_SHUTDOWN_EVENT` of `wincon.h`. -/
def CTRL_SHUTDOWN_EVENT : Nat := 6

/-- The globals `g_running` and `g_listenSocket`, with the history of the
`closesocket` calls made on the listening handle (their arguments, in order). -/
structure ServerState where
  g_running : Bool
  g_listenSocket : SOCKET
  closed : List SOCKET
  deriving DecidableEq

/-- The function `consoleCtrlHandler(ctrlType)` (lines 82-97): the returned
`BOOL` and the state it leaves.  Any other control type takes the `default`
branch. -/
def consoleCtrlHandler (ctrlType : Nat) (s : ServerState) : Bool × ServerState :=
  if ctrlType = CTRL_C_EVENT ∨ ctrlType = CTRL_CLOSE_EVENT ∨ ctrlType = CTRL_BREAK_EVENT
      ∨ ctrlType = CTRL_SHUTDOWN_EVENT then
    let s1 : ServerState := { s with g_running := false }
    if s1.g_listenSocket ≠ INVALID_SOCKET then
      let s2 : ServerState := { s1 with closed := s1.closed ++ [s1.g_listenSocket] }
      (true, { s2 with g_listenSocket := INVALID_SOCKET })
    else (true, s1)
  else (false, s)

/-! ## `main`: diagnostics, log lines, accepted connections and exit status -/

/-- Diagnostics written to `std::cerr` by `main`. -/
inductive Diag where
  | wsaStartupFailed
  | socketFailed
  | bindFailed
  | listenFailed
  deriving DecidableEq

/-- Operations of `main` recorded in its trace: diagnostics, log lines, loads
of `g_running`, `accept` calls with the handle they returned, and handler
threads started with `std::thread(clientThread, clientSocket, client).detach()`. -/
inductive MainOp where
  | diag (d : Diag)
  | log (line : LogLine)
  | load (running : Bool)
  | accept (clientSocket : SOCKET)
  | spawn (clientSocket : SOCKET)
  deriving DecidableEq

/-- Results of the four startup calls of `main`: the `int` returned by
`WSAStartup`, the handle returned by `socket`, the `int`s returned by `bind`
and `listen`. -/
structure StartupEnv where
  WSAStartup : Int
  socket : SOCKET
  bind : Int
  listen : Int

/-- Environment of `main`: the startup results, the control types of the
invocations of `consoleCtrlHandler` that run between the store to
`g_listenSocket` at line 109 and its test at line 110, and the scripts of the
values seen by `g_running.load()` and of the handles returned by `accept`. -/
structure MainEnv extends StartupEnv where
  ctrlTypes : List Nat
  running : List Bool
  accepts : List SOCKET

/-- A run of the listener loop: whether the loop was left, and its operations. -/
structure LoopRun where
  ended : Bool
  trace : List MainOp
  deriving DecidableEq

/-- A run of `main`: the exit status when `main` returned, and its operations. -/
structure MainRun where
  exit : Option Int
  trace : List MainOp
  deriving DecidableEq

/-- The listener loop `while (g_running.load()) { ... }` of `main` (lines 141-157). -/
def acceptLoop : List Bool → List SOCKET → LoopRun
  | [], _ => { ended := false, trace := [] }
  | false :: _, _ => { ended := true, trace := [.load false] }
  | true :: _, [] => { ended := false, trace := [.load true] }
  | true :: running, clientSocket :: accepts =>
    match running with
    | [] => { ended := false, trace := [.load true, .accept clientSocket] }
    | false :: _ => { ended := true, trace := [.load true, .accept clientSocket, .load false] }
    | true :: running =>
      if clientSocket = INVALID_SOCKET then
        match running with
        | [] =>
          { ended := false, trace := [.load true, .accept clientSocket, .load true] }
        | false :: _ =>
          { ended := true,
            trace := [.load true, .accept clientSocket, .load true, .load false] }
        | true :: running =>
          let next := acceptLoop running accepts
          { ended := next.ended,
            trace := [.load true, .accept clientSocket, .load true, .load true,
                      .log .acceptFailed] ++ next.trace }
      else
        let next := acceptLoop running accepts
        { ended := next.ended,
          trace := [.load true, .accept clientSocket, .load true,
                    .spawn clientSocket] ++ next.trace }

/-- The globals when `main` tests `g_listenSocket` at line 110: line 109 has
stored the handle returned by `socket`, and `consoleCtrlHandler` has then run
once for each control event delivered before the test.  (The flag and the
history of the starting state have no influence on the handle.) -/
def globalsAtLine110 (socket : SOCKET) (ctrlTypes : List Nat) : ServerState :=
  ctrlTypes.foldl (fun s ctrlType => (consoleCtrlHandler ctrlType s).2)
    { g_running := true, g_listenSocket := socket, closed := [] }

/-- The function `main()` (lines 99-163), as far as its diagnostics, log
lines, `accept` calls, spawned handlers and exit status go.  Line 110 tests
the global `g_listenSocket`, which holds the handle stored at line 109 unless
`consoleCtrlHandler` has reset it in between; `bind` and `listen` are tested
on their own return values.  The calls made on the listening handle are the
subject of the step machine `step` below. -/
def main (env : MainEnv) : MainRun :=
  if env.WSAStartup ≠ 0 then { exit := some 1, trace := [.diag .wsaStartupFailed] }
  else if (globalsAtLine110 env.socket env.ctrlTypes).g_listenSocket = INVALID_SOCKET then
    { exit := some 1, trace := [.diag .socketFailed] }
  else if env.bind = SOCKET_ERROR then { exit := some 1, trace := [.diag .bindFailed] }
  else if env.listen = SOCKET_ERROR then { exit := some 1, trace := [.diag .listenFailed] }
  else
    let l := acceptLoop env.running env.accepts
    if l.ended then
      { exit := some 0, trace := .log .listening :: l.trace ++ [.log .shuttingDown] }
    else { exit := none, trace := .log .listening :: l.trace }

/-! ## `main` and `consoleCtrlHandler` as a step machine on the listening handle -/

/-- Program points of `main`, named by the source line of the statement
executed next (a point stands for the lines up to the next point: `l111` for
lines 111-113, `l118` for lines 117-123, `l128` for lines 128-129); `l146 c`,
`l148 c` and `l156 c` carry the value of the local `clientSocket`,
`exited status` is the state after `return status`. -/
inductive Pc where
  | l104
  | l109
  | l110
  | l111
  | l118
  | l125
  | l126
  | l127
  | l128
  | l132
  | l133
  | l134
  | l135
  | l139
  | l141
  | l145
  | l146 (clientSocket : SOCKET)
  | l148 (clientSocket : SOCKET)
  | l150
  | l151
  | l156 (clientSocket : SOCKET)
  | l159
  | l160
  | l161
  | exited (status : Int)
  deriving DecidableEq

/-- State of the process: the program point of `main`, the globals, and the
handles the coming `accept` calls will return. -/
structure Proc where
  pc : Pc
  st : ServerState
  accepts : List SOCKET
  deriving DecidableEq

/-- One statement of `main`, executed at program point `p.pc`: its effect on
the globals and on the history of `closesocket` calls, and the next program
point.  An `accept` for which no result is scripted stays blocked. -/
def mainStep (env : StartupEnv) (p : Proc) : Proc :=
  match p.pc with
  | .l104 => if env.WSAStartup ≠ 0 then { p with pc := .exited 1 } else { p with pc := .l109 }
  | .l109 => { p with pc := .l110, st := { p.st with g_listenSocket := env.socket } }
  | .l110 =>
    if p.st.g_listenSocket = INVALID_SOCKET then { p with pc := .l111 } else { p with pc := .l118 }
  | .l111 => { p with pc := .exited 1 }
  | .l118 => { p with pc := .l125 }
  | .l125 => if env.bind = SOCKET_ERROR then { p with pc := .l126 } else { p with pc := .l132 }
  | .l126 => { p with pc := .l127 }
  | .l127 => { p with pc := .l128, st := { p.st with closed := p.st.closed ++ [p.st.g_listenSocket] } }
  | .l128 => { p with pc := .exited 1 }
  | .l132 => if env.listen = SOCKET_ERROR then { p with pc := .l133 } else { p with pc := .l139 }
  | .l133 => { p with pc := .l134 }
  | .l134 => { p with pc := .l135, st := { p.st with closed := p.st.closed ++ [p.st.g_listenSocket] } }
  | .l135 => { p with pc := .exited 1 }
  | .l139 => { p with pc := .l141 }
  | .l141 => if p.st.g_running then { p with pc := .l145 } else { p with pc := .l159 }
  | .l145 =>
    match p.accepts with
    | [] => p
    | clientSocket :: accepts => { p with pc := .l146 clientSocket, accepts := accepts }
  | .l146 clientSocket =>
    if !p.st.g_running then { p with pc := .l159 } else { p with pc := .l148 clientSocket }
  | .l148 clientSocket =>
    if clientSocket = INVALID_SOCKET then { p with pc := .l150 }
    else { p with pc := .l156 clientSocket }
  | .l150 => if !p.st.g_running then { p with pc := .l159 } else { p with pc := .l151 }
  | .l151 => { p with pc := .l141 }
  | .l156 _ => { p with pc := .l141 }
  | .l159 => { p with pc := .l160 }
  | .l160 =>
    if p.st.g_listenSocket ≠ INVALID_SOCKET then
      { p with pc := .l161, st := { p.st with closed := p.st.closed ++ [p.st.g_listenSocket] } }
    else { p with pc := .l161 }
  | .l161 => { p with pc := .exited 0 }
  | .exited status => { p with pc := .exited status }

/-- Steps of the process: the next statement of `main`, or one atomic
invocation of `consoleCtrlHandler` with the given control type. -/
inductive Event where
  | main
  | ctrl (ctrlType : Nat)
  deriving DecidableEq

/-- One step of the process.  Once `main` has returned the process is gone and
nothing runs any more. -/
def step (env : StartupEnv) (p : Proc) : Event → Proc
  | .main => mainStep env p
  | .ctrl ctrlType =>
    match p.pc with
    | .exited _ => p
    | _ => { p with st := (consoleCtrlHandler ctrlType p.st).2 }

/-- The state once `main` has installed the handler (line 100):
`g_running{true}`, `g_listenSocket = INVALID_SOCKET`, nothing closed yet. -/
def initial (accepts : List SOCKET) : Proc :=
  { pc := .l104, st := { g_running := true, g_listenSocket := INVALID_SOCKET, closed := [] },
    accepts := accepts }

/-- The state reached from `p` by a schedule of steps. -/
def run (env : StartupEnv) (p : Proc) (schedule : List Event) : Proc :=
  schedule.foldl (step env) p

/-! ## Traces and environments used in the statements -/

/-- Trace of `n` iterations of the listener loop in each of which `accept`
returned `INVALID_SOCKET` and `g_running` was loaded `true` at lines 141, 146
and 150: the failure is logged and the loop continues. -/
def acceptFailures : Nat → List MainOp
  | 0 => []
  | n + 1 =>
    [.load true, .accept INVALID_SOCKET, .load true, .load true, .log .acceptFailed]
      ++ acceptFailures n

/-- A client that sends `hello`, echoed by two partial writes, then `world!`,
echoed at once, and then closes the connection. -/
def helloWorld : ClientEnv :=
  { getnameinfo := 0
    buf := List.replicate 4096 0
    running := [true, true, true]
    recvs := [.data [104, 101, 108, 108, 111], .data [119, 111, 114, 108, 100, 33], .closed]
    sends := [2, 3, 6] }

/-- A client whose second `send` fails after a partial write of two bytes. -/
def brokenPipe : ClientEnv :=
  { getnameinfo := 1
    buf := List.replicate 4096 0
    running := [true, true]
    recvs := [.data [104, 101, 108, 108, 111], .data [33]]
    sends := [2, SOCKET_ERROR] }

/-- A listener that accepts connection `9`, sees one `accept` fail, accepts
connection `11` and is then shut down. -/
def twoClients : MainEnv :=
  { WSAStartup := 0, socket := 7, bind := 0, listen := 0
    ctrlTypes := []
    running := [true, true, true, true, true, true, true, false]
    accepts := [9, INVALID_SOCKET, 11] }

/-- A listener whose `accept` returns connection `5` while the shutdown
request arrives: `g_running` is `true` at line 141 and `false` at line 146. -/
def shutdownDuringAccept : MainEnv :=
  { WSAStartup := 0, socket := 7, bind := 0, listen := 0
    ctrlTypes := []
    running := [true, false]
    accepts := [5] }

/-- A startup in which all four calls succeed, `socket` returning handle `7`,
and a `CTRL_C_EVENT` is delivered between the store to `g_listenSocket` at
line 109 and its test at line 110. -/
def shutdownDuringStartup : MainEnv :=
  { WSAStartup := 0, socket := 7, bind := 0, listen := 0
    ctrlTypes := [CTRL_C_EVENT]
    running := [false]
    accepts := [] }

/-- The same startup as `shutdownDuringStartup` with no control event before
line 110; the shutdown request is seen at the first load of `g_running`. -/
def shutdownAfterStartup : MainEnv :=
  { WSAStartup := 0, socket := 7, bind := 0, listen := 0
    ctrlTypes := []
    running := [false]
    accepts := [] }

/-- Startup in which `socket` returns handle `7` and `bind` fails (the port is in use). -/
def bindFails : StartupEnv :=
  { WSAStartup := 0, socket := 7, bind := SOCKET_ERROR, listen := 0 }

/-- Startup in which all four calls succeed, `socket` returning handle `7`. -/
def startupOk : StartupEnv :=
  { WSAStartup := 0, socket := 7, bind := 0, listen := 0 }

/-! ## Lemmas on `sendAll` -/

theorem sendAllLoop_done (data : List Byte) (len total : Int) (sends : List Int)
    (h : ¬ total < len) :
    sendAllLoop data len sends total = { result := some true, calls := [], rest := sends } := by
  cases sends <;> simp [sendAllLoop, h]

theorem sendAllLoop_fail (data : List Byte) (len total sent : Int) (sends : List Int)
    (h : total < len) (hs : sent = SOCKET_ERROR ∨ sent = 0) :
    sendAllLoop data len (sent :: sends) total =
      { result := some false,
        calls := [{ offset := total, len := len - total,
                    window := (data.drop total.toNat).take (len - total).toNat, ret := sent }],
        rest := sends } := by
  rcases hs with hs | hs
  · simp [sendAllLoop, h, hs]
  · by_cases h1 : sent = SOCKET_ERROR
    · simp [sendAllLoop, h, h1]
    · simp [sendAllLoop, h, hs, h1]

theorem sendAllLoop_more (data : List Byte) (len total sent : Int) (sends : List Int)
    (h : total < len) (h1 : sent ≠ SOCKET_ERROR) (h0 : sent ≠ 0) :
    sendAllLoop data len (sent :: sends) total =
      { sendAllLoop data len sends (total + sent) with
        calls := { offset := total, len := len - total,
                   window := (data.drop total.toNat).take (len - total).toNat, ret := sent }
                 :: (sendAllLoop data len sends (total + sent)).calls } := by
  simp [sendAllLoop, h, h1, h0]

theorem sendAllLoop_blocked (data : List Byte) (len total : Int) (h : total < len) :
    sendAllLoop data len [] total = { result := none, calls := [], rest := [] } := by
  simp [sendAllLoop, h]

/-- Case analysis following the control flow of the loop of `sendAll`. -/
theorem sendAllLoop_cases (len : Int) (motive : List Int → Int → Prop)
    (done : ∀ sends total, ¬ total < len → motive sends total)
    (blocked : ∀ total, total < len → motive [] total)
    (fail : ∀ sent sends total, total < len → (sent = SOCKET_ERROR ∨ sent = 0) →
      motive (sent :: sends) total)
    (more : ∀ sent sends total, total < len → sent ≠ SOCKET_ERROR → sent ≠ 0 →
      motive sends (total + sent) → motive (sent :: sends) total) :
    ∀ sends total, motive sends total := by
  intro sends
  induction sends with
  | nil =>
    intro total
    by_cases h : total < len
    · exact blocked total h
    · exact done [] total h
  | cons sent sends ih =>
    intro total
    by_cases h : total < len
    · by_cases h1 : sent = SOCKET_ERROR
      · exact fail sent sends total h (Or.inl h1)
      · by_cases h0 : sent = 0
        · exact fail sent sends total h (Or.inr h0)
        · exact more sent sends total h h1 h0 (ih (total + sent))
    · exact done (sent :: sends) total h

/-- Every `send` call of the loop requests exactly the bytes `data[total .. len)`
that remain, and is made only while some remain. -/
theorem sendAllLoop_call_shape (data : List Byte) (len : Int) (sends : List Int) (total : Int) :
    ∀ c ∈ (sendAllLoop data len sends total).calls,
      c.offset < len ∧ c.len = len - c.offset ∧
      c.window = (data.drop c.offset.toNat).take c.len.toNat := by
  revert sends total
  apply sendAllLoop_cases len
  · intro sends total h c hc
    simp [sendAllLoop_done data len total sends h] at hc
  · intro total h c hc
    simp [sendAllLoop_blocked data len total h] at hc
  · intro sent sends total h hs c hc
    simp [sendAllLoop_fail data len total sent sends h hs] at hc
    subst hc
    exact ⟨h, rfl, rfl⟩
  · intro sent sends total h h1 h0 ih c hc
    simp [sendAllLoop_more data len total sent sends h h1 h0] at hc
    rcases hc with hc | hc
    · subst hc
      exact ⟨h, rfl, rfl⟩
    · exact ih c hc

/-- The offset of each `send` call is the initial total plus the values
returned by the calls before it. -/
theorem sendAllLoop_offsets (data : List Byte) (len : Int) (sends : List Int) (total : Int) :
    ∀ pre c post, (sendAllLoop data len sends total).calls = pre ++ c :: post →
      c.offset = total + (pre.map SendCall.ret).sum := by
  revert sends total
  apply sendAllLoop_cases len
  · intro sends total h pre c post hc
    simp [sendAllLoop_done data len total sends h] at hc
  · intro total h pre c post hc
    simp [sendAllLoop_blocked data len total h] at hc
  · intro sent sends total h hs pre c post hc
    rw [sendAllLoop_fail data len total sent sends h hs] at hc
    cases pre with
    | nil =>
      simp at hc
      simp [← hc.1]
    | cons p pre => simp at hc
  · intro sent sends total h h1 h0 ih pre c post hc
    rw [sendAllLoop_more data len total sent sends h h1 h0] at hc
    cases pre with
    | nil =>
      simp at hc
      simp [← hc.1]
    | cons p pre =>
      simp at hc
      have := ih pre c post hc.2
      rw [this, ← hc.1]
      simp
      ring

/-- A `send` call that returned `SOCKET_ERROR` or `0` is the last call of the
loop, and the loop then returned `false`. -/
theorem sendAllLoop_failing_last (data : List Byte) (len : Int) (sends : List Int) (total : Int) :
    ∀ pre c post, (sendAllLoop data len sends total).calls = pre ++ c :: post →
      (c.ret = SOCKET_ERROR ∨ c.ret = 0) →
      post = [] ∧ (sendAllLoop data len sends total).result = some false := by
  revert sends total
  apply sendAllLoop_cases len
  · intro sends total h pre c post hc
    simp [sendAllLoop_done data len total sends h] at hc
  · intro total h pre c post hc
    simp [sendAllLoop_blocked data len total h] at hc
  · intro sent sends total h hs pre c post hc _
    rw [sendAllLoop_fail data len total sent sends h hs] at hc ⊢
    cases pre with
    | nil =>
      simp at hc
      simp [← hc.2]
    | cons p pre => simp at hc
  · intro sent sends total h h1 h0 ih pre c post hc hret
    rw [sendAllLoop_more data len total sent sends h h1 h0] at hc ⊢
    cases pre with
    | nil =>
      simp at hc
      rw [← hc.1] at hret
      simp at hret
      rcases hret with hret | hret
      · exact absurd hret h1
      · exact absurd hret h0
    | cons p pre =>
      simp at hc
      exact ih pre c post hc.2 hret

/-- When the loop returned `false`, some `send` call returned `SOCKET_ERROR` or `0`. -/
theorem sendAllLoop_false_has_failing (data : List Byte) (len : Int) (sends : List Int)
    (total : Int) :
    (sendAllLoop data len sends total).result = some false →
      ∃ c ∈ (sendAllLoop data len sends total).calls, c.ret = SOCKET_ERROR ∨ c.ret = 0 := by
  revert sends total
  apply sendAllLoop_cases len
  · intro sends total h hr
    simp [sendAllLoop_done data len total sends h] at hr
  · intro total h hr
    simp [sendAllLoop_blocked data len total h] at hr
  · intro sent sends total h hs _
    rw [sendAllLoop_fail data len total sent sends h hs]
    simpa using hs
  · intro sent sends total h h1 h0 ih hr
    rw [sendAllLoop_more data len total sent sends h h1 h0] at hr ⊢
    obtain ⟨c, hc, hf⟩ := ih hr
    exact ⟨c, List.mem_cons_of_mem _ hc, hf⟩

/-- Under the contract of `send`, the running total never leaves `[0, len]`:
every call starts at a non-negative offset and a successful call leaves the
total positive and at most `len`. -/
theorem sendAllLoop_total_bounds (data : List Byte) (len : Int) (sends : List Int) (total : Int) :
    0 ≤ total → (∀ c ∈ (sendAllLoop data len sends total).calls, c.WellBehaved) →
    ∀ c ∈ (sendAllLoop data len sends total).calls,
      0 ≤ c.offset ∧
      (c.ret ≠ SOCKET_ERROR → c.ret ≠ 0 → 0 < c.offset + c.ret ∧ c.offset + c.ret ≤ len) := by
  revert sends total
  apply sendAllLoop_cases len
  · intro sends total h _ _ c hc
    simp [sendAllLoop_done data len total sends h] at hc
  · intro total h _ _ c hc
    simp [sendAllLoop_blocked data len total h] at hc
  · intro sent sends total h hs ht _ c hc
    simp [sendAllLoop_fail data len total sent sends h hs] at hc
    subst hc
    refine ⟨ht, ?_⟩
    intro h1 h0
    rcases hs with hs | hs
    · exact absurd hs h1
    · exact absurd hs h0
  · intro sent sends total h h1 h0 ih ht hw c hc
    rw [sendAllLoop_more data len total sent sends h h1 h0] at hw hc
    simp only [List.mem_cons, forall_eq_or_imp] at hw
    have hw0 := hw.1
    simp only [SendCall.WellBehaved] at hw0
    have hsent : 0 < sent ∧ sent ≤ len - total := by
      rcases hw0 with hw0 | hw0
      · exact absurd hw0 h1
      · exact ⟨lt_of_le_of_ne hw0.1 (Ne.symm h0), hw0.2⟩
    simp only [List.mem_cons] at hc
    rcases hc with hc | hc
    · subst hc
      refine ⟨ht, ?_⟩
      intro _ _
      simp only
      omega
    · exact ih (by omega) hw.2 c hc

/-- Under the contract of `send`, the loop makes at most `len - total` calls,
and returns as soon as the script holds that many results. -/
theorem sendAllLoop_terminates (data : List Byte) (len : Int) (sends : List Int) (total : Int) :
    (∀ c ∈ (sendAllLoop data len sends total).calls, c.WellBehaved) →
    (sendAllLoop data len sends total).calls.length ≤ (len - total).toNat ∧
    ((len - total).toNat ≤ sends.length →
      (sendAllLoop data len sends total).result.isSome = true) := by
  revert sends total
  apply sendAllLoop_cases len
  · intro sends total h _
    simp [sendAllLoop_done data len total sends h]
  · intro total h _
    simp [sendAllLoop_blocked data len total h]
    omega
  · intro sent sends total h hs _
    simp [sendAllLoop_fail data len total sent sends h hs]
    omega
  · intro sent sends total h h1 h0 ih hw
    rw [sendAllLoop_more data len total sent sends h h1 h0] at hw ⊢
    simp only [List.mem_cons, forall_eq_or_imp] at hw
    have hw0 := hw.1
    simp only [SendCall.WellBehaved] at hw0
    have hsent : 0 < sent ∧ sent ≤ len - total := by
      rcases hw0 with hw0 | hw0
      · exact absurd hw0 h1
      · exact ⟨lt_of_le_of_ne hw0.1 (Ne.symm h0), hw0.2⟩
    obtain ⟨ih1, ih2⟩ := ih hw.2
    simp only [List.length_cons]
    constructor
    · omega
    · intro hlen
      apply ih2
      omega

/-- Under the contract of `send`, the bytes accepted by the calls of the loop
are the next `k` bytes of `data` after the initial total, with `k` at most
the number `len - total` of bytes to send, equal to it when the loop returned
`true` and below it when the loop returned `false`. -/
theorem sendAllLoop_accepted (data : List Byte) (len : Int) (sends : List Int) (total : Int) :
    0 ≤ total → (∀ c ∈ (sendAllLoop data len sends total).calls, c.WellBehaved) →
    ∃ k : Nat, acceptedBytes (sendAllLoop data len sends total).calls
        = (data.drop total.toNat).take k ∧
      k ≤ (len - total).toNat ∧
      ((sendAllLoop data len sends total).result = some true → k = (len - total).toNat) ∧
      ((sendAllLoop data len sends total).result = some false → k < (len - total).toNat) := by
  revert sends total
  apply sendAllLoop_cases len
  · intro sends total h _ _
    refine ⟨0, ?_⟩
    simp [sendAllLoop_done data len total sends h, acceptedBytes]
    omega
  · intro total h _ _
    refine ⟨0, ?_⟩
    simp [sendAllLoop_blocked data len total h, acceptedBytes]
  · intro sent sends total h hs _ _
    refine ⟨0, ?_⟩
    rw [sendAllLoop_fail data len total sent sends h hs]
    have : sent.toNat = 0 := by
      rcases hs with hs | hs <;> simp [hs, SOCKET_ERROR]
    simp [acceptedBytes, SendCall.accepted, this]
    omega
  · intro sent sends total h h1 h0 ih ht hw
    rw [sendAllLoop_more data len total sent sends h h1 h0] at hw ⊢
    simp only [List.mem_cons, forall_eq_or_imp] at hw
    have hw0 := hw.1
    simp only [SendCall.WellBehaved] at hw0
    have hsent : 0 < sent ∧ sent ≤ len - total := by
      rcases hw0 with hw0 | hw0
      · exact absurd hw0 h1
      · exact ⟨lt_of_le_of_ne hw0.1 (Ne.symm h0), hw0.2⟩
    obtain ⟨k, hk, hle, htrue, hfalse⟩ := ih (by omega) hw.2
    refine ⟨sent.toNat + k, ?_, ?_, ?_, ?_⟩
    · simp only [acceptedBytes, SendCall.accepted, hk]
      have e1 : (total + sent).toNat = total.toNat + sent.toNat := by omega
      have e2 : min sent.toNat (len - total).toNat = sent.toNat := by omega
      rw [List.take_take, e2, e1, List.take_add, List.drop_drop]
    · omega
    · intro hr
      have := htrue hr
      omega
    · intro hr
      have := hfalse hr
      omega

/-- The first `send` call of `sendAll` is handed the whole of `data[0 .. len)`;
when there is something to send and no call was made, the run is blocked. -/
theorem sendAll_first_call (data : List Byte) (len : Int) (sends : List Int) (hlen : 0 < len) :
    ((sendAll data len sends).calls = [] ∧ (sendAll data len sends).result = none) ∨
    ∃ ret calls, (sendAll data len sends).calls =
      { offset := 0, len := len, window := data.take len.toNat, ret := ret } :: calls := by
  unfold sendAll
  cases sends with
  | nil => simp [sendAllLoop_blocked data len 0 hlen]
  | cons sent sends =>
    right
    by_cases hs : sent = SOCKET_ERROR ∨ sent = 0
    · rw [sendAllLoop_fail data len 0 sent sends hlen hs]
      exact ⟨sent, [], by simp⟩
    · rw [sendAllLoop_more data len 0 sent sends hlen (fun h => hs (Or.inl h))
        (fun h => hs (Or.inr h))]
      exact ⟨sent, (sendAllLoop data len sends (0 + sent)).calls, by simp⟩

/-! ## Lemmas on lists of operations -/

/-- Where a chosen element of a concatenation lies: in the left part or in the right part. -/
theorem append_eq_split {α : Type} {l1 l2 pre post : List α} {x : α}
    (h : l1 ++ l2 = pre ++ x :: post) :
    (∃ post1, l1 = pre ++ x :: post1 ∧ post = post1 ++ l2) ∨
    (∃ pre2, pre = l1 ++ pre2 ∧ l2 = pre2 ++ x :: post) := by
  induction l1 generalizing pre with
  | nil => exact Or.inr ⟨pre, by simp, by simpa using h⟩
  | cons a l1 ih =>
    cases pre with
    | nil =>
      simp only [List.cons_append, List.nil_append, List.cons.injEq] at h
      exact Or.inl ⟨l1, by simp [h.1], h.2.symm⟩
    | cons b pre =>
      simp only [List.cons_append, List.cons.injEq] at h
      rcases ih h.2 with ⟨post1, h1, h2⟩ | ⟨pre2, h1, h2⟩
      · exact Or.inl ⟨post1, by simp [h.1, h1], h2⟩
      · exact Or.inr ⟨pre2, by simp [h.1, h1], h2⟩

/-- A chosen element of a mapped list comes from an element of the list. -/
theorem map_eq_split {α β : Type} (f : α → β) {l : List α} {pre post : List β} {x : β}
    (h : l.map f = pre ++ x :: post) :
    ∃ lpre a lpost, l = lpre ++ a :: lpost ∧ x = f a ∧ pre = lpre.map f ∧
      post = lpost.map f := by
  induction l generalizing pre with
  | nil => simp at h
  | cons b l ih =>
    cases pre with
    | nil =>
      simp only [List.map_cons, List.nil_append, List.cons.injEq] at h
      exact ⟨[], b, l, by simp, h.1.symm, by simp, h.2.symm⟩
    | cons p pre =>
      simp only [List.map_cons, List.cons_append, List.cons.injEq] at h
      obtain ⟨lpre, a, lpost, h1, h2, h3, h4⟩ := ih h.2
      exact ⟨b :: lpre, a, lpost, by simp [h1], h2, by simp [h.1, h3], h4⟩

/-- Where a chosen operation of one iteration of the echo loop lies: it is the
load of `g_running`, the `recv`, one of the `send` calls, or an operation of
what follows the `send` calls. -/
theorem iteration_split {r : RecvResult} {calls : List SendCall} {tail pre post : List ClientOp}
    {op : ClientOp}
    (h : ClientOp.load true :: ClientOp.recv r :: (calls.map ClientOp.send ++ tail)
      = pre ++ op :: post) :
    (pre = [] ∧ op = .load true) ∨
    (pre = [.load true] ∧ op = .recv r ∧ post = calls.map ClientOp.send ++ tail) ∨
    (∃ cpre c cpost, calls = cpre ++ c :: cpost ∧ op = .send c ∧
      post = cpost.map ClientOp.send ++ tail) ∨
    (∃ pre2, tail = pre2 ++ op :: post) := by
  cases pre with
  | nil =>
    simp only [List.nil_append, List.cons.injEq] at h
    exact Or.inl ⟨rfl, h.1.symm⟩
  | cons p pre =>
    simp only [List.cons_append, List.cons.injEq] at h
    cases pre with
    | nil =>
      simp only [List.nil_append, List.cons.injEq] at h
      exact Or.inr (Or.inl ⟨by simp [h.1], h.2.1.symm, h.2.2.symm⟩)
    | cons q pre =>
      simp only [List.cons_append, List.cons.injEq] at h
      rcases append_eq_split h.2.2 with ⟨post1, h1, h2⟩ | ⟨pre2, _, h2⟩
      · obtain ⟨cpre, c, cpost, e1, e2, _, e4⟩ := map_eq_split ClientOp.send h1
        exact Or.inr (Or.inr (Or.inl ⟨cpre, c, cpost, e1, e2, by rw [h2, e4]⟩))
      · exact Or.inr (Or.inr (Or.inr ⟨pre2, h2⟩))

theorem sendCalls_append (a b : List ClientOp) :
    sendCalls (a ++ b) = sendCalls a ++ sendCalls b := by
  induction a with
  | nil => rfl
  | cons x a ih => cases x <;> simp [sendCalls, ih]

theorem sendCalls_map_send (calls : List SendCall) :
    sendCalls (calls.map ClientOp.send) = calls := by
  induction calls with
  | nil => rfl
  | cons c calls ih => simp [sendCalls, ih]

theorem recvBytes_append (a b : List ClientOp) :
    recvBytes (a ++ b) = recvBytes a ++ recvBytes b := by
  induction a with
  | nil => rfl
  | cons x a ih =>
    cases x with
    | recv r => cases r <;> simp [recvBytes, ih]
    | _ => simp [recvBytes, ih]

theorem recvBytes_map_send (calls : List SendCall) :
    recvBytes (calls.map ClientOp.send) = [] := by
  induction calls with
  | nil => rfl
  | cons c calls ih => simp [recvBytes, ih]

theorem acceptedBytes_append (a b : List SendCall) :
    acceptedBytes (a ++ b) = acceptedBytes a ++ acceptedBytes b := by
  induction a with
  | nil => rfl
  | cons x a ih => simp [acceptedBytes, ih]

/-! ## Lemmas on `clientThread` -/

/-- A `recv` result that is neither `0` nor `SOCKET_ERROR` carries a non-empty chunk. -/
theorem RecvResult.data_of_bytes (r : RecvResult) (h0 : r.bytes ≠ 0)
    (h1 : r.bytes ≠ SOCKET_ERROR) : ∃ chunk, r = .data chunk ∧ chunk ≠ [] := by
  cases r with
  | data chunk =>
    refine ⟨chunk, rfl, ?_⟩
    intro h
    simp [RecvResult.bytes, h] at h0
  | closed => simp [RecvResult.bytes] at h0
  | error => simp [RecvResult.bytes] at h1

theorem RecvResult.bytes_data_ne (chunk : List Byte) (h : chunk ≠ []) :
    (RecvResult.data chunk).bytes ≠ 0 ∧ (RecvResult.data chunk).bytes ≠ SOCKET_ERROR := by
  simp only [RecvResult.bytes, SOCKET_ERROR]
  have : 0 < chunk.length := List.length_pos.mpr h
  omega

/-- Case analysis following the control flow of the echo loop: each case
gives the run of the loop on the path taken. -/
theorem clientLoop_cases
    (motive : List Bool → List Byte → List RecvResult → List Int → ClientRun → Prop)
    (noLoad : ∀ buf recvs sends, motive [] buf recvs sends { returned := false, trace := [] })
    (stop : ∀ running buf recvs sends,
      motive (false :: running) buf recvs sends { returned := true, trace := [.load false] })
    (noRecv : ∀ running buf sends,
      motive (true :: running) buf [] sends { returned := false, trace := [.load true] })
    (closed : ∀ running buf r recvs sends, r.bytes = 0 →
      motive (true :: running) buf (r :: recvs) sends
        { returned := true, trace := [.load true, .recv r, .log .clientDisconnected] })
    (error : ∀ running buf r recvs sends, r.bytes = SOCKET_ERROR →
      motive (true :: running) buf (r :: recvs) sends
        { returned := true, trace := [.load true, .recv r, .log .recvFailed] })
    (blocked : ∀ running buf chunk recvs sends, chunk ≠ [] →
      (sendAll (chunk ++ buf.drop chunk.length) chunk.length sends).result = none →
      motive (true :: running) buf (.data chunk :: recvs) sends
        { returned := false,
          trace := .load true :: .recv (.data chunk) ::
            ((sendAll (chunk ++ buf.drop chunk.length) chunk.length sends).calls.map .send
              ++ []) })
    (failed : ∀ running buf chunk recvs sends, chunk ≠ [] →
      (sendAll (chunk ++ buf.drop chunk.length) chunk.length sends).result = some false →
      motive (true :: running) buf (.data chunk :: recvs) sends
        { returned := true,
          trace := .load true :: .recv (.data chunk) ::
            ((sendAll (chunk ++ buf.drop chunk.length) chunk.length sends).calls.map .send
              ++ [.log .sendFailed]) })
    (echoed : ∀ running buf chunk recvs sends, chunk ≠ [] →
      (sendAll (chunk ++ buf.drop chunk.length) chunk.length sends).result = some true →
      motive running (chunk ++ buf.drop chunk.length) recvs
        (sendAll (chunk ++ buf.drop chunk.length) chunk.length sends).rest
        (clientLoop running (chunk ++ buf.drop chunk.length) recvs
          (sendAll (chunk ++ buf.drop chunk.length) chunk.length sends).rest) →
      motive (true :: running) buf (.data chunk :: recvs) sends
        { returned := (clientLoop running (chunk ++ buf.drop chunk.length) recvs
            (sendAll (chunk ++ buf.drop chunk.length) chunk.length sends).rest).returned,
          trace := .load true :: .recv (.data chunk) ::
            ((sendAll (chunk ++ buf.drop chunk.length) chunk.length sends).calls.map .send
              ++ (clientLoop running (chunk ++ buf.drop chunk.length) recvs
                (sendAll (chunk ++ buf.drop chunk.length) chunk.length sends).rest).trace) }) :
    ∀ running buf recvs sends,
      motive running buf recvs sends (clientLoop running buf recvs sends) := by
  intro running
  induction running with
  | nil =>
    intro buf recvs sends
    simpa [clientLoop] using noLoad buf recvs sends
  | cons b running ih =>
    intro buf recvs sends
    cases b with
    | false => simpa [clientLoop] using stop running buf recvs sends
    | true =>
      cases recvs with
      | nil => simpa [clientLoop] using noRecv running buf sends
      | cons r recvs =>
        by_cases h0 : r.bytes = 0
        · simpa [clientLoop, h0] using closed running buf r recvs sends h0
        · by_cases h1 : r.bytes = SOCKET_ERROR
          · simpa [clientLoop, h0, h1] using error running buf r recvs sends h1
          · obtain ⟨chunk, hr, hne⟩ := RecvResult.data_of_bytes r h0 h1
            subst hr
            have hb : (RecvResult.data chunk).bytes = (chunk.length : Int) := rfl
            have hst : (RecvResult.data chunk).store buf = chunk ++ buf.drop chunk.length := rfl
            rw [hb] at h0 h1
            cases hres : (sendAll (chunk ++ buf.drop chunk.length) chunk.length sends).result with
            | none =>
              have := blocked running buf chunk recvs sends hne hres
              simp only [clientLoop, hb, hst, h0, h1, if_false, hres]
              simpa using this
            | some ok =>
              cases ok with
              | false =>
                have := failed running buf chunk recvs sends hne hres
                simp only [clientLoop, hb, hst, h0, h1, if_false, hres]
                simpa using this
              | true =>
                have := echoed running buf chunk recvs sends hne hres
                  (ih (chunk ++ buf.drop chunk.length) recvs _)
                simp only [clientLoop, hb, hst, h0, h1, if_false, hres]
                simpa using this

/-- Every `send` call of the echo loop belongs to a call of `sendAll` whose
`len` (the offset plus the requested length) is the size of a received chunk. -/
theorem clientLoop_send_len (running : List Bool) (buf : List Byte) (recvs : List RecvResult)
    (sends : List Int) :
    (∀ chunk, RecvResult.data chunk ∈ recvs → (chunk.length : Int) ≤ BUF_SIZE) →
    ∀ c ∈ sendCalls (clientLoop running buf recvs sends).trace,
      1 ≤ c.offset + c.len ∧ c.offset + c.len ≤ BUF_SIZE := by
  have key : ∀ (buf : List Byte) (chunk : List Byte) (sends : List Int), chunk ≠ [] →
      (chunk.length : Int) ≤ BUF_SIZE →
      ∀ c ∈ (sendAll (chunk ++ buf.drop chunk.length) chunk.length sends).calls,
        1 ≤ c.offset + c.len ∧ c.offset + c.len ≤ BUF_SIZE := by
    intro buf chunk sends hne hle c hc
    have hshape := sendAllLoop_call_shape _ _ _ _ c hc
    have hpos : 0 < chunk.length := List.length_pos.mpr hne
    omega
  revert running buf recvs sends
  apply clientLoop_cases (motive := fun _ _ recvs _ run =>
    (∀ chunk, RecvResult.data chunk ∈ recvs → (chunk.length : Int) ≤ BUF_SIZE) →
    ∀ c ∈ sendCalls run.trace, 1 ≤ c.offset + c.len ∧ c.offset + c.len ≤ BUF_SIZE)
  · intro buf recvs sends _ c hc
    simp [sendCalls] at hc
  · intro running buf recvs sends _ c hc
    simp [sendCalls] at hc
  · intro running buf sends _ c hc
    simp [sendCalls] at hc
  · intro running buf r recvs sends _ _ c hc
    simp [sendCalls] at hc
  · intro running buf r recvs sends _ _ c hc
    simp [sendCalls] at hc
  · intro running buf chunk recvs sends hne _ hrecv c hc
    simp only [sendCalls, List.append_nil, sendCalls_map_send] at hc
    exact key buf chunk sends hne (hrecv chunk (by simp)) c hc
  · intro running buf chunk recvs sends hne _ hrecv c hc
    simp only [sendCalls, sendCalls_append, sendCalls_map_send, List.append_nil] at hc
    exact key buf chunk sends hne (hrecv chunk (by simp)) c hc
  · intro running buf chunk recvs sends hne _ ih hrecv c hc
    simp only [sendCalls, sendCalls_append, sendCalls_map_send, List.mem_append] at hc
    rcases hc with hc | hc
    · exact key buf chunk sends hne (hrecv chunk (by simp)) c hc
    · exact ih (fun ch hch => hrecv ch (List.mem_cons_of_mem _ hch)) c hc

/-- The `send` calls of `clientThread` are those of its echo loop. -/
theorem sendCalls_clientThread (env : ClientEnv) :
    sendCalls (clientThread env).trace
      = sendCalls (clientLoop env.running env.buf env.recvs env.sends).trace := by
  unfold clientThread
  by_cases h0 : env.getnameinfo = 0 <;>
    cases hret : (clientLoop env.running env.buf env.recvs env.sends).returned <;>
    simp [h0, hret, sendCalls, sendCalls_append]

/-- The bytes received by `clientThread` are those received by its echo loop. -/
theorem recvBytes_clientThread (env : ClientEnv) :
    recvBytes (clientThread env).trace
      = recvBytes (clientLoop env.running env.buf env.recvs env.sends).trace := by
  unfold clientThread
  by_cases h0 : env.getnameinfo = 0 <;>
    cases hret : (clientLoop env.running env.buf env.recvs env.sends).returned <;>
    simp [h0, hret, recvBytes, recvBytes_append]

/-- In the echo loop, a zero-byte read, a read error and a failing `send` are
each followed by their log line and by nothing else, and the loop is left. -/
theorem clientLoop_fatal (running : List Bool) (buf : List Byte) (recvs : List RecvResult)
    (sends : List Int) :
    ∀ pre op post, (clientLoop running buf recvs sends).trace = pre ++ op :: post →
      (∀ r, op = .recv r → r.bytes = 0 →
        post = [.log .clientDisconnected] ∧
        (clientLoop running buf recvs sends).returned = true) ∧
      (∀ r, op = .recv r → r.bytes = SOCKET_ERROR →
        post = [.log .recvFailed] ∧ (clientLoop running buf recvs sends).returned = true) ∧
      (∀ c, op = .send c → (c.ret = SOCKET_ERROR ∨ c.ret = 0) →
        post = [.log .sendFailed] ∧ (clientLoop running buf recvs sends).returned = true) := by
  revert running buf recvs sends
  apply clientLoop_cases (motive := fun _ _ _ _ run =>
    ∀ (pre : List ClientOp) (op : ClientOp) (post : List ClientOp),
      run.trace = pre ++ op :: post →
      (∀ r : RecvResult, op = ClientOp.recv r → r.bytes = 0 →
        post = [ClientOp.log LogLine.clientDisconnected] ∧ run.returned = true) ∧
      (∀ r : RecvResult, op = ClientOp.recv r → r.bytes = SOCKET_ERROR →
        post = [ClientOp.log LogLine.recvFailed] ∧ run.returned = true) ∧
      (∀ c : SendCall, op = ClientOp.send c → (c.ret = SOCKET_ERROR ∨ c.ret = 0) →
        post = [ClientOp.log LogLine.sendFailed] ∧ run.returned = true))
  · intro buf recvs sends pre op post h
    simp at h
  · intro running buf recvs sends pre op post h
    rcases pre with _ | ⟨p1, pre⟩ <;> simp at h
    obtain ⟨h1, _⟩ := h
    subst h1
    simp
  · intro running buf sends pre op post h
    rcases pre with _ | ⟨p1, pre⟩ <;> simp at h
    obtain ⟨h1, _⟩ := h
    subst h1
    simp
  · intro running buf r recvs sends hr pre op post h
    rcases pre with _ | ⟨p1, _ | ⟨p2, _ | ⟨p3, pre⟩⟩⟩ <;> simp at h
    · obtain ⟨h1, _⟩ := h
      subst h1
      simp
    · obtain ⟨_, h1, h2⟩ := h
      subst h1 h2
      simp [hr, SOCKET_ERROR]
    · obtain ⟨_, _, h1, _⟩ := h
      subst h1
      simp
  · intro running buf r recvs sends hr pre op post h
    rcases pre with _ | ⟨p1, _ | ⟨p2, _ | ⟨p3, pre⟩⟩⟩ <;> simp at h
    · obtain ⟨h1, _⟩ := h
      subst h1
      simp
    · obtain ⟨_, h1, h2⟩ := h
      subst h1 h2
      simp [hr, SOCKET_ERROR]
    · obtain ⟨_, _, h1, _⟩ := h
      subst h1
      simp
  · intro running buf chunk recvs sends hne hres pre op post h
    have hb := RecvResult.bytes_data_ne chunk hne
    rcases iteration_split h with ⟨_, h1⟩ | ⟨_, h1, _⟩ | ⟨cpre, c, cpost, h1, h2, _⟩ | ⟨pre2, h1⟩
    · subst h1
      simp
    · subst h1
      simp [hb.1, hb.2]
    · subst h2
      refine ⟨by simp, by simp, ?_⟩
      intro c1 hc1 hfail
      simp only [ClientOp.send.injEq] at hc1
      subst hc1
      have := (sendAllLoop_failing_last _ _ _ _ cpre c cpost h1 hfail).2
      unfold sendAll at hres
      rw [hres] at this
      simp at this
    · simp at h1
  · intro running buf chunk recvs sends hne hres pre op post h
    have hb := RecvResult.bytes_data_ne chunk hne
    rcases iteration_split h with ⟨_, h1⟩ | ⟨_, h1, _⟩ | ⟨cpre, c, cpost, h1, h2, h3⟩ | ⟨pre2, h1⟩
    · subst h1
      simp
    · subst h1
      simp [hb.1, hb.2]
    · subst h2
      refine ⟨by simp, by simp, ?_⟩
      intro c1 hc1 hfail
      simp only [ClientOp.send.injEq] at hc1
      subst hc1
      have := (sendAllLoop_failing_last _ _ _ _ cpre c cpost h1 hfail).1
      subst this
      simp [h3]
    · rcases pre2 with _ | ⟨p1, pre2⟩ <;> simp at h1
      obtain ⟨h1, _⟩ := h1
      subst h1
      simp
  · intro running buf chunk recvs sends hne hres ih pre op post h
    have hb := RecvResult.bytes_data_ne chunk hne
    rcases iteration_split h with ⟨_, h1⟩ | ⟨_, h1, _⟩ | ⟨cpre, c, cpost, h1, h2, _⟩ | ⟨pre2, h1⟩
    · subst h1
      simp
    · subst h1
      simp [hb.1, hb.2]
    · subst h2
      refine ⟨by simp, by simp, ?_⟩
      intro c1 hc1 hfail
      simp only [ClientOp.send.injEq] at hc1
      subst hc1
      have := (sendAllLoop_failing_last _ _ _ _ cpre c cpost h1 hfail).2
      unfold sendAll at hres
      rw [hres] at this
      simp at this
    · exact ih pre2 op post h1

/-- The echo loop never closes the socket, and when it is left its last
operation is the one that ended it: a load of `g_running` that gave `false`,
or the log line of a zero-byte read, of a read error or of a `send` failure. -/
theorem clientLoop_exit (running : List Bool) (buf : List Byte) (recvs : List RecvResult)
    (sends : List Int) :
    ClientOp.closesocket ∉ (clientLoop running buf recvs sends).trace ∧
    ((clientLoop running buf recvs sends).returned = true →
      ∃ pre last, (clientLoop running buf recvs sends).trace = pre ++ [last] ∧
        (last = .load false ∨ last = .log .clientDisconnected ∨ last = .log .recvFailed ∨
          last = .log .sendFailed)) := by
  revert running buf recvs sends
  apply clientLoop_cases (motive := fun _ _ _ _ run =>
    ClientOp.closesocket ∉ run.trace ∧
    (run.returned = true →
      ∃ (pre : List ClientOp) (last : ClientOp), run.trace = pre ++ [last] ∧
        (last = ClientOp.load false ∨ last = ClientOp.log LogLine.clientDisconnected ∨
          last = ClientOp.log LogLine.recvFailed ∨ last = ClientOp.log LogLine.sendFailed)))
  · intro buf recvs sends
    simp
  · intro running buf recvs sends
    exact ⟨by simp, fun _ => ⟨[], .load false, by simp, by simp⟩⟩
  · intro running buf sends
    simp
  · intro running buf r recvs sends _
    exact ⟨by simp, fun _ => ⟨[.load true, .recv r], .log .clientDisconnected, by simp, by simp⟩⟩
  · intro running buf r recvs sends _
    exact ⟨by simp, fun _ => ⟨[.load true, .recv r], .log .recvFailed, by simp, by simp⟩⟩
  · intro running buf chunk recvs sends _ _
    simp
  · intro running buf chunk recvs sends _ _
    refine ⟨by simp, fun _ => ⟨ClientOp.load true :: ClientOp.recv (RecvResult.data chunk) ::
      (sendAll (chunk ++ buf.drop chunk.length) chunk.length sends).calls.map ClientOp.send,
      .log .sendFailed, by simp, by simp⟩⟩
  · intro running buf chunk recvs sends _ _ ih
    refine ⟨by simpa using ih.1, ?_⟩
    intro hret
    obtain ⟨pre, last, h1, h2⟩ := ih.2 hret
    refine ⟨ClientOp.load true :: ClientOp.recv (RecvResult.data chunk) ::
      ((sendAll (chunk ++ buf.drop chunk.length) chunk.length sends).calls.map ClientOp.send
        ++ pre), last, ?_, h2⟩
    simp only [h1]
    simp

/-- Under the contract of `send`, the bytes accepted during one call
`sendAll(clientSocket, buf, bytes)` of the echo loop are a prefix of the chunk
just received, and the whole chunk when `sendAll` returned `true`. -/
theorem iteration_accepted (buf chunk : List Byte) (sends : List Int)
    (hw : ∀ c ∈ (sendAll (chunk ++ buf.drop chunk.length) chunk.length sends).calls,
      c.WellBehaved) :
    acceptedBytes (sendAll (chunk ++ buf.drop chunk.length) chunk.length sends).calls
      <+: chunk ∧
    ((sendAll (chunk ++ buf.drop chunk.length) chunk.length sends).result = some true →
      acceptedBytes (sendAll (chunk ++ buf.drop chunk.length) chunk.length sends).calls
        = chunk) := by
  unfold sendAll at *
  obtain ⟨k, hk, hle, htrue, _⟩ := sendAllLoop_accepted _ _ sends 0 (le_refl 0) hw
  simp only [Int.toNat_zero, List.drop_zero, sub_zero, Int.toNat_ofNat] at hk hle htrue
  rw [List.take_append_of_le_length hle] at hk
  constructor
  · rw [hk]
    exact List.take_prefix k chunk
  · intro hr
    rw [hk, htrue hr, List.take_length]

/-- Echo fidelity of the loop: under the contract of `send`, the bytes
accepted by `send` are a prefix of the bytes received, and all of them once
the loop is left without a failing `send`. -/
theorem clientLoop_echo (running : List Bool) (buf : List Byte) (recvs : List RecvResult)
    (sends : List Int) :
    (∀ c ∈ sendCalls (clientLoop running buf recvs sends).trace, c.WellBehaved) →
    sentBytes (clientLoop running buf recvs sends).trace
      <+: recvBytes (clientLoop running buf recvs sends).trace ∧
    ((clientLoop running buf recvs sends).returned = true →
      (∀ c ∈ sendCalls (clientLoop running buf recvs sends).trace,
        c.ret ≠ SOCKET_ERROR ∧ c.ret ≠ 0) →
      sentBytes (clientLoop running buf recvs sends).trace
        = recvBytes (clientLoop running buf recvs sends).trace) := by
  revert running buf recvs sends
  apply clientLoop_cases (motive := fun _ _ _ _ run =>
    (∀ c ∈ sendCalls run.trace, c.WellBehaved) →
    sentBytes run.trace <+: recvBytes run.trace ∧
    (run.returned = true →
      (∀ c ∈ sendCalls run.trace, c.ret ≠ SOCKET_ERROR ∧ c.ret ≠ 0) →
      sentBytes run.trace = recvBytes run.trace))
  · intro buf recvs sends _
    simp [sentBytes, sendCalls, recvBytes, acceptedBytes]
  · intro running buf recvs sends _
    simp [sentBytes, sendCalls, recvBytes, acceptedBytes]
  · intro running buf sends _
    simp [sentBytes, sendCalls, recvBytes, acceptedBytes]
  · intro running buf r recvs sends hr _
    cases r with
    | data chunk =>
      have : chunk = [] := by simpa [RecvResult.bytes] using hr
      subst this
      simp [sentBytes, sendCalls, recvBytes, acceptedBytes]
    | closed => simp [sentBytes, sendCalls, recvBytes, acceptedBytes]
    | error => simp [sentBytes, sendCalls, recvBytes, acceptedBytes]
  · intro running buf r recvs sends hr _
    cases r with
    | data chunk => simp [RecvResult.bytes, SOCKET_ERROR] at hr
    | closed => simp [sentBytes, sendCalls, recvBytes, acceptedBytes]
    | error => simp [sentBytes, sendCalls, recvBytes, acceptedBytes]
  · intro running buf chunk recvs sends _ _ hw
    simp only [sentBytes, sendCalls, sendCalls_append, sendCalls_map_send, List.append_nil,
      recvBytes, recvBytes_append, recvBytes_map_send, List.nil_append] at hw ⊢
    exact ⟨(iteration_accepted buf chunk sends hw).1, by simp⟩
  · intro running buf chunk recvs sends _ hres hw
    simp only [sentBytes, sendCalls, sendCalls_append, sendCalls_map_send, List.append_nil,
      recvBytes, recvBytes_append, recvBytes_map_send, List.nil_append] at hw ⊢
    refine ⟨(iteration_accepted buf chunk sends hw).1, ?_⟩
    intro _ hall
    obtain ⟨c, hc, hf⟩ := sendAllLoop_false_has_failing _ _ _ _ hres
    rcases hf with hf | hf
    · exact absurd hf (hall c hc).1
    · exact absurd hf (hall c hc).2
  · intro running buf chunk recvs sends _ hres ih hw
    simp only [sentBytes, sendCalls, sendCalls_append, sendCalls_map_send,
      recvBytes, recvBytes_append, recvBytes_map_send, List.nil_append,
      acceptedBytes_append, List.mem_append] at hw ih ⊢
    have hacc := (iteration_accepted buf chunk sends (fun c hc => hw c (Or.inl hc))).2 hres
    obtain ⟨ih1, ih2⟩ := ih (fun c hc => hw c (Or.inr hc))
    rw [hacc]
    refine ⟨(List.prefix_append_right_inj chunk).mpr ih1, ?_⟩
    intro hret hall
    rw [ih2 hret (fun c hc => hall c (Or.inr hc))]

/-- In the echo loop, the operation after a `recv` that returned a non-empty
chunk is the first `send` call of `sendAll`, at offset `0`, for the length of
the chunk and with exactly the chunk as its window; unless no `send` result is
available, in which case the loop is blocked there. -/
theorem clientLoop_handed (running : List Bool) (buf : List Byte) (recvs : List RecvResult)
    (sends : List Int) :
    ∀ pre chunk post,
      (clientLoop running buf recvs sends).trace
        = pre ++ ClientOp.recv (RecvResult.data chunk) :: post →
      chunk ≠ [] →
      (post = [] ∧ (clientLoop running buf recvs sends).returned = false) ∨
      ∃ ret post1, post = ClientOp.send
        { offset := 0, len := chunk.length, window := chunk, ret := ret } :: post1 := by
  have first : ∀ (buf chunk : List Byte) (sends : List Int) (tail : List ClientOp),
      chunk ≠ [] →
      ((sendAll (chunk ++ buf.drop chunk.length) chunk.length sends).calls = [] ∧
        (sendAll (chunk ++ buf.drop chunk.length) chunk.length sends).result = none) ∨
      ∃ ret post1,
        (sendAll (chunk ++ buf.drop chunk.length) chunk.length sends).calls.map ClientOp.send
          ++ tail
        = ClientOp.send { offset := 0, len := chunk.length, window := chunk, ret := ret }
          :: post1 := by
    intro buf chunk sends tail hne
    have hpos : (0 : Int) < chunk.length := by
      have := List.length_pos.mpr hne
      omega
    rcases sendAll_first_call (chunk ++ buf.drop chunk.length) chunk.length sends hpos with
      h | ⟨ret, calls, h⟩
    · exact Or.inl h
    · refine Or.inr ⟨ret, calls.map ClientOp.send ++ tail, ?_⟩
      rw [h]
      simp
  revert running buf recvs sends
  apply clientLoop_cases (motive := fun _ _ _ _ run =>
    ∀ (pre : List ClientOp) (chunk : List Byte) (post : List ClientOp),
      run.trace = pre ++ ClientOp.recv (RecvResult.data chunk) :: post →
      chunk ≠ [] →
      (post = [] ∧ run.returned = false) ∨
      ∃ (ret : Int) (post1 : List ClientOp), post = ClientOp.send
        { offset := 0, len := chunk.length, window := chunk, ret := ret } :: post1)
  · intro buf recvs sends pre chunk post h
    simp at h
  · intro running buf recvs sends pre chunk post h
    rcases pre with _ | ⟨p1, pre⟩ <;> simp at h
  · intro running buf sends pre chunk post h
    rcases pre with _ | ⟨p1, pre⟩ <;> simp at h
  · intro running buf r recvs sends hr pre chunk post h hne
    rcases pre with _ | ⟨p1, _ | ⟨p2, _ | ⟨p3, pre⟩⟩⟩ <;> simp at h
    obtain ⟨_, h1, _⟩ := h
    subst h1
    exact absurd hr (RecvResult.bytes_data_ne chunk hne).1
  · intro running buf r recvs sends hr pre chunk post h hne
    rcases pre with _ | ⟨p1, _ | ⟨p2, _ | ⟨p3, pre⟩⟩⟩ <;> simp at h
    obtain ⟨_, h1, _⟩ := h
    subst h1
    exact absurd hr (RecvResult.bytes_data_ne chunk hne).2
  · intro running buf chunk0 recvs sends hne0 hres pre chunk post h hne
    rcases iteration_split h with ⟨_, h1⟩ | ⟨_, h1, h2⟩ | ⟨_, c, _, _, h2, _⟩ | ⟨pre2, h1⟩
    · simp at h1
    · simp only [ClientOp.recv.injEq, RecvResult.data.injEq] at h1
      subst h1
      rcases first buf chunk sends [] hne with ⟨hc, _⟩ | hfirst
      · left
        simp [h2, hc]
      · right
        rw [h2]
        exact hfirst
    · simp at h2
    · simp at h1
  · intro running buf chunk0 recvs sends hne0 hres pre chunk post h hne
    rcases iteration_split h with ⟨_, h1⟩ | ⟨_, h1, h2⟩ | ⟨_, c, _, _, h2, _⟩ | ⟨pre2, h1⟩
    · simp at h1
    · simp only [ClientOp.recv.injEq, RecvResult.data.injEq] at h1
      subst h1
      rcases first buf chunk sends [.log .sendFailed] hne with ⟨_, hn⟩ | hfirst
      · rw [hres] at hn
        simp at hn
      · right
        rw [h2]
        exact hfirst
    · simp at h2
    · rcases pre2 with _ | ⟨p1, pre2⟩ <;> simp at h1
  · intro running buf chunk0 recvs sends hne0 hres ih pre chunk post h hne
    rcases iteration_split h with ⟨_, h1⟩ | ⟨_, h1, h2⟩ | ⟨_, c, _, _, h2, _⟩ | ⟨pre2, h1⟩
    · simp at h1
    · simp only [ClientOp.recv.injEq, RecvResult.data.injEq] at h1
      subst h1
      rcases first buf chunk sends _ hne with ⟨_, hn⟩ | hfirst
      · rw [hres] at hn
        simp at hn
      · right
        rw [h2]
        exact hfirst
    · simp at h2
    · exact ih pre2 chunk post h1 hne

/-- The trace of `clientThread`: the connection line, the trace of the echo
loop and, once the loop is left, `closesocket`. -/
theorem clientThread_trace (env : ClientEnv) :
    (clientThread env).returned = (clientLoop env.running env.buf env.recvs env.sends).returned ∧
    (clientThread env).trace =
      ClientOp.log (LogLine.clientConnected (decide (env.getnameinfo = 0))) ::
        ((clientLoop env.running env.buf env.recvs env.sends).trace ++
          if (clientLoop env.running env.buf env.recvs env.sends).returned = true
          then [ClientOp.closesocket] else []) := by
  unfold clientThread
  by_cases h0 : env.getnameinfo = 0 <;>
    cases hret : (clientLoop env.running env.buf env.recvs env.sends).returned <;>
    simp [h0, hret]

/-- Where a chosen operation of `clientThread` lies: it is the connection
line, an operation of the echo loop, or the final `closesocket`. -/
theorem clientThread_split (env : ClientEnv) {pre post : List ClientOp} {op : ClientOp}
    (h : (clientThread env).trace = pre ++ op :: post) :
    (pre = [] ∧ op = .log (.clientConnected (decide (env.getnameinfo = 0)))) ∨
    (∃ pre1 post1,
      (clientLoop env.running env.buf env.recvs env.sends).trace = pre1 ++ op :: post1 ∧
      post = post1 ++
        if (clientLoop env.running env.buf env.recvs env.sends).returned = true
        then [ClientOp.closesocket] else []) ∨
    (op = .closesocket ∧ post = []) := by
  rw [(clientThread_trace env).2] at h
  cases pre with
  | nil =>
    simp only [List.nil_append, List.cons.injEq] at h
    exact Or.inl ⟨rfl, h.1.symm⟩
  | cons p pre =>
    simp only [List.cons_append, List.cons.injEq] at h
    rcases append_eq_split h.2 with ⟨post1, h1, h2⟩ | ⟨pre2, _, h2⟩
    · exact Or.inr (Or.inl ⟨pre, post1, h1, h2⟩)
    · right
      right
      cases hret : (clientLoop env.running env.buf env.recvs env.sends).returned
      · simp [hret] at h2
      · simp only [hret, if_true] at h2
        rcases pre2 with _ | ⟨p1, pre2⟩ <;> simp at h2
        exact ⟨h2.1.symm, h2.2⟩

/-! ## `sendAll`: postcondition and termination -/

/-- C2. Postcondition of `sendAll(s, data, len)`, assuming every `send` call
returned `SOCKET_ERROR`, `0`, or a count between 1 and the requested length:
`sendAll` returns as soon as the script holds `max(len, 0)` results; when it
returns, it returns `true` if and only if no `send` call returned
`SOCKET_ERROR` or `0`; each call is issued at the offset equal to the sum of
the counts returned by the previous calls, requests exactly the remaining
`len - offset` bytes and is handed `data[offset .. len)`; when `sendAll`
returns `true` the accepted chunks, concatenated, are exactly
`data[0 .. len)`, and when it returns `false` they are a strict prefix of it
(`data` holding at least `len` bytes). -/
theorem sendAll_postcondition (data : List Byte) (len : Int) (sends : List Int)
    (hcontract : ∀ c ∈ (sendAll data len sends).calls, c.WellBehaved) :
    (len.toNat ≤ sends.length → (sendAll data len sends).result.isSome = true) ∧
    (∀ b, (sendAll data len sends).result = some b →
      (b = true ↔ ∀ c ∈ (sendAll data len sends).calls, c.ret ≠ SOCKET_ERROR ∧ c.ret ≠ 0)) ∧
    (∀ pre c post, (sendAll data len sends).calls = pre ++ c :: post →
      c.offset = (pre.map SendCall.ret).sum ∧ c.len = len - c.offset ∧
      c.window = (data.drop c.offset.toNat).take c.len.toNat) ∧
    ((sendAll data len sends).result = some true →
      acceptedBytes (sendAll data len sends).calls = data.take len.toNat) ∧
    ((sendAll data len sends).result = some false →
      acceptedBytes (sendAll data len sends).calls <+: data.take len.toNat ∧
      (len ≤ data.length →
        acceptedBytes (sendAll data len sends).calls ≠ data.take len.toNat)) := by
  unfold sendAll at *
  obtain ⟨k, hk, hle, htrue, hfalse⟩ :=
    sendAllLoop_accepted data len sends 0 (le_refl 0) hcontract
  simp only [Int.toNat_zero, List.drop_zero, sub_zero] at hk hle htrue hfalse
  refine ⟨?_, ?_, ?_, ?_, ?_⟩
  · have := (sendAllLoop_terminates data len sends 0 hcontract).2
    simpa using this
  · intro b hb
    constructor
    · intro hbt c hc
      subst hbt
      obtain ⟨pre, post, hsplit⟩ := List.append_of_mem hc
      constructor
      · intro h
        have := (sendAllLoop_failing_last data len sends 0 pre c post hsplit (Or.inl h)).2
        rw [hb] at this
        simp at this
      · intro h
        have := (sendAllLoop_failing_last data len sends 0 pre c post hsplit (Or.inr h)).2
        rw [hb] at this
        simp at this
    · intro hall
      cases b with
      | true => rfl
      | false =>
        obtain ⟨c, hc, hf⟩ := sendAllLoop_false_has_failing data len sends 0 hb
        rcases hf with hf | hf
        · exact absurd hf (hall c hc).1
        · exact absurd hf (hall c hc).2
  · intro pre c post hsplit
    have hoff := sendAllLoop_offsets data len sends 0 pre c post hsplit
    have hshape := sendAllLoop_call_shape data len sends 0 c (by rw [hsplit]; simp)
    refine ⟨by simpa using hoff, hshape.2.1, hshape.2.2⟩
  · intro hr
    rw [hk, htrue hr]
  · intro hr
    have hlt := hfalse hr
    constructor
    · rw [hk]
      exact (List.take_prefix_take_left data (le_of_lt hlt))
    · intro hdata heq
      have hlen := congrArg List.length heq
      rw [hk] at hlen
      simp only [List.length_take] at hlen
      omega

/-- C10. Termination and bounds of `sendAll`, for every `len` and every
script of `send` results in which each successful result is between 1 and the
requested length: the loop makes at most `max(len, 0)` calls and returns once
the script holds that many results; every call is given an offset in
`[0, len)` and a positive length with `offset + length = len`, its window
being the part of `data[0 .. len)` from that offset on, so that the running
total is within `[0, len)` before each call and within `(0, len]` after a
successful one; for `len ≤ 0` it returns `true` without calling `send`; and
as called from `clientThread`, where `recv` returns at most `BUF_SIZE` bytes,
the `len` of every call of `sendAll` (the `offset + length` of its `send`
calls) is between 1 and 4096. -/
theorem sendAll_terminates_in_bounds (data : List Byte) (len : Int) (sends : List Int)
    (hcontract : ∀ c ∈ (sendAll data len sends).calls, c.WellBehaved) :
    (sendAll data len sends).calls.length ≤ len.toNat ∧
    (len.toNat ≤ sends.length → (sendAll data len sends).result.isSome = true) ∧
    (∀ c ∈ (sendAll data len sends).calls,
      0 ≤ c.offset ∧ c.offset < len ∧ 0 < c.len ∧ c.offset + c.len = len ∧
      c.window = (data.take len.toNat).drop c.offset.toNat ∧
      (c.ret ≠ SOCKET_ERROR → c.ret ≠ 0 → 0 < c.offset + c.ret ∧ c.offset + c.ret ≤ len)) ∧
    (len ≤ 0 → sendAll data len sends = { result := some true, calls := [], rest := sends }) ∧
    (∀ env : ClientEnv,
      (∀ chunk, RecvResult.data chunk ∈ env.recvs → (chunk.length : Int) ≤ BUF_SIZE) →
      ∀ c ∈ sendCalls (clientThread env).trace,
        1 ≤ c.offset + c.len ∧ c.offset + c.len ≤ BUF_SIZE) := by
  unfold sendAll at hcontract ⊢
  have hterm := sendAllLoop_terminates data len sends 0 hcontract
  simp only [sub_zero] at hterm
  refine ⟨hterm.1, hterm.2, ?_, ?_, ?_⟩
  · intro c hc
    have hshape := sendAllLoop_call_shape data len sends 0 c hc
    have hbound := sendAllLoop_total_bounds data len sends 0 (le_refl 0) hcontract c hc
    refine ⟨hbound.1, hshape.1, by omega, by omega, ?_, hbound.2⟩
    have e : c.len.toNat = len.toNat - c.offset.toNat := by omega
    rw [hshape.2.2, e, List.drop_take]
  · intro hlen
    exact sendAllLoop_done data len 0 sends (by omega)
  · intro env hrecv c hc
    rw [sendCalls_clientThread] at hc
    exact clientLoop_send_len env.running env.buf env.recvs env.sends hrecv c hc

/-! ## `clientThread`: echo fidelity, fatal events, closing the socket -/

/-- C1. Echo fidelity of `clientThread`, for every script of `recv` results
and every behaviour of `send` within its contract (`SOCKET_ERROR`, or a count
between `0` and the requested length): the concatenation of all bytes accepted
by `send` is a prefix of the concatenation of all bytes returned by `recv`;
the two are equal whenever `clientThread` returned (in particular after a
zero-byte read) and no `send` call returned `0` or `SOCKET_ERROR`; and within
each iteration the bytes handed to `sendAll` are exactly the bytes returned by
that iteration's `recv`: the operation after a `recv` of a non-empty chunk is
the `send` call at offset `0`, for the length of the chunk, whose window is
the chunk itself (or the thread is blocked there, no `send` result being
available). -/
theorem clientThread_echo_fidelity (env : ClientEnv)
    (hcontract : ∀ c ∈ sendCalls (clientThread env).trace, c.WellBehaved) :
    sentBytes (clientThread env).trace <+: recvBytes (clientThread env).trace ∧
    ((clientThread env).returned = true →
      (∀ c ∈ sendCalls (clientThread env).trace, c.ret ≠ SOCKET_ERROR ∧ c.ret ≠ 0) →
      sentBytes (clientThread env).trace = recvBytes (clientThread env).trace) ∧
    (∀ pre chunk post,
      (clientThread env).trace = pre ++ ClientOp.recv (RecvResult.data chunk) :: post →
      chunk ≠ [] →
      (post = [] ∧ (clientThread env).returned = false) ∨
      ∃ ret post1, post = ClientOp.send
        { offset := 0, len := chunk.length, window := chunk, ret := ret } :: post1) := by
  have hloop := clientLoop_echo env.running env.buf env.recvs env.sends
  simp only [sentBytes, sendCalls_clientThread, recvBytes_clientThread,
    (clientThread_trace env).1] at hcontract ⊢
  simp only [sentBytes] at hloop
  refine ⟨(hloop hcontract).1, (hloop hcontract).2, ?_⟩
  intro pre chunk post h hne
  rcases clientThread_split env h with ⟨_, h1⟩ | ⟨pre1, post1, h1, h2⟩ | ⟨h1, _⟩
  · simp at h1
  · rcases clientLoop_handed env.running env.buf env.recvs env.sends pre1 chunk post1 h1 hne
      with ⟨hp, hr⟩ | ⟨ret, post2, hp⟩
    · left
      simp [h2, hp, hr]
    · right
      exact ⟨ret, post2 ++ _, by rw [h2, hp, List.cons_append]⟩
  · simp at h1

/-- C3. Fatal-to-connection events end the handler: in every run of
`clientThread`, a `recv` that returned `0` is followed by the disconnect line
and then only by `closesocket`; a `recv` that returned `SOCKET_ERROR` is
followed by the `recv` error line and then only by `closesocket`; a `send`
that returned `SOCKET_ERROR` or `0` (the two ways for `sendAll` to return
`false`) is followed by the `send` error line and then only by `closesocket`.
So each such event gets exactly one log line, no further `recv` or `send` is
made, the loop is left, and a zero-byte read or a read error is never
followed by a write. -/
theorem clientThread_fatal_events (env : ClientEnv) (pre post : List ClientOp) (op : ClientOp)
    (h : (clientThread env).trace = pre ++ op :: post) :
    (∀ r, op = .recv r → r.bytes = 0 →
      post = [.log .clientDisconnected, .closesocket]) ∧
    (∀ r, op = .recv r → r.bytes = SOCKET_ERROR →
      post = [.log .recvFailed, .closesocket]) ∧
    (∀ c, op = .send c → (c.ret = SOCKET_ERROR ∨ c.ret = 0) →
      post = [.log .sendFailed, .closesocket]) := by
  rcases clientThread_split env h with ⟨_, h1⟩ | ⟨pre1, post1, h1, h2⟩ | ⟨h1, _⟩
  · subst h1
    simp
  · obtain ⟨f1, f2, f3⟩ := clientLoop_fatal env.running env.buf env.recvs env.sends pre1 op post1 h1
    refine ⟨?_, ?_, ?_⟩
    · intro r hr hb
      obtain ⟨e1, e2⟩ := f1 r hr hb
      simp [h2, e1, e2]
    · intro r hr hb
      obtain ⟨e1, e2⟩ := f2 r hr hb
      simp [h2, e1, e2]
    · intro c hc hb
      obtain ⟨e1, e2⟩ := f3 c hc hb
      simp [h2, e1, e2]
  · subst h1
    simp

/-- C4. Every run of `clientThread` that returns, whatever `getnameinfo`,
the loads of `g_running`, `recv` and `send` gave, calls `closesocket` exactly
once, as its last operation (no `recv` or `send` after it), right after the
operation that ended the loop: a load of `g_running` that gave `false`, or the
log line of a zero-byte read, of a read error or of a `send` failure; a run
that has not returned has not closed the socket.  Each of the four exit paths
does return: `g_running` false at the first load, a first `recv` returning
`0`, or `SOCKET_ERROR`, and a first `send` returning `SOCKET_ERROR` or `0`. -/
theorem clientThread_closes_once (env : ClientEnv) :
    ((clientThread env).returned = true →
      (clientThread env).trace.count .closesocket = 1 ∧
      ∃ pre last, (clientThread env).trace = pre ++ [last, .closesocket] ∧
        ClientOp.closesocket ∉ pre ++ [last] ∧
        (last = .load false ∨ last = .log .clientDisconnected ∨ last = .log .recvFailed ∨
          last = .log .sendFailed)) ∧
    ((clientThread env).returned = false → ClientOp.closesocket ∉ (clientThread env).trace) ∧
    (∀ running, env.running = false :: running → (clientThread env).returned = true) ∧
    (∀ running r recvs, env.running = true :: running → env.recvs = r :: recvs →
      r.bytes = 0 ∨ r.bytes = SOCKET_ERROR → (clientThread env).returned = true) ∧
    (∀ running chunk recvs sent sends, env.running = true :: running →
      env.recvs = .data chunk :: recvs → chunk ≠ [] → env.sends = sent :: sends →
      sent = SOCKET_ERROR ∨ sent = 0 → (clientThread env).returned = true) := by
  obtain ⟨hret, htrace⟩ := clientThread_trace env
  obtain ⟨hno, hlast⟩ := clientLoop_exit env.running env.buf env.recvs env.sends
  refine ⟨?_, ?_, ?_, ?_, ?_⟩
  · intro h
    rw [hret] at h
    obtain ⟨pre, last, h1, h2⟩ := hlast h
    have hno1 : ClientOp.closesocket ∉ pre ++ [last] := by rw [← h1]; exact hno
    have hfull : (clientThread env).trace =
        (ClientOp.log (LogLine.clientConnected (decide (env.getnameinfo = 0))) :: pre)
          ++ [last, .closesocket] := by
      rw [htrace, h, h1]
      simp
    refine ⟨?_, _, last, hfull, ?_, h2⟩
    · rw [htrace, h]
      simp [List.count_cons, List.count_eq_zero_of_not_mem hno]
    · simpa using hno1
  · intro h
    rw [hret] at h
    rw [htrace, h]
    simpa using hno
  · intro running hrun
    rw [hret, hrun]
    simp [clientLoop]
  · intro running r recvs hrun hrecv hb
    rw [hret, hrun, hrecv]
    rcases hb with hb | hb
    · simp [clientLoop, hb]
    · simp [clientLoop, hb, SOCKET_ERROR]
  · intro running chunk recvs sent sends hrun hrecv hne hsend hfail
    rw [hret, hrun, hrecv, hsend]
    have hb := RecvResult.bytes_data_ne chunk hne
    have hpos : (0 : Int) < (RecvResult.data chunk).bytes := by
      have := List.length_pos.mpr hne
      simp only [RecvResult.bytes]
      omega
    have hres : (sendAll ((RecvResult.data chunk).store env.buf) (RecvResult.data chunk).bytes
        (sent :: sends)).result = some false := by
      unfold sendAll
      rw [sendAllLoop_fail _ _ 0 sent sends hpos hfail]
    simp [clientLoop, hb.1, hb.2, hres]

/-! ## `consoleCtrlHandler`: effect and idempotence -/

/-- C5. Effect and idempotence of the shutdown handler, as a function on the
state (`g_running`, `g_listenSocket`, history of closed handles): invoked with
any of the four recognised control events it returns `TRUE` and leaves
`g_running = false` and `g_listenSocket = INVALID_SOCKET`, having closed the
previous handle if and only if it was not `INVALID_SOCKET`; a second
invocation on the resulting state changes nothing and closes nothing, so two
requests in succession close the listening socket at most once. -/
theorem consoleCtrlHandler_idempotent (ctrlType : Nat) (s : ServerState)
    (h : ctrlType = CTRL_C_EVENT ∨ ctrlType = CTRL_CLOSE_EVENT ∨ ctrlType = CTRL_BREAK_EVENT
      ∨ ctrlType = CTRL_SHUTDOWN_EVENT) :
    (consoleCtrlHandler ctrlType s).1 = true ∧
    (consoleCtrlHandler ctrlType s).2.g_running = false ∧
    (consoleCtrlHandler ctrlType s).2.g_listenSocket = INVALID_SOCKET ∧
    (s.g_listenSocket ≠ INVALID_SOCKET →
      (consoleCtrlHandler ctrlType s).2.closed = s.closed ++ [s.g_listenSocket]) ∧
    (s.g_listenSocket = INVALID_SOCKET → (consoleCtrlHandler ctrlType s).2.closed = s.closed) ∧
    (∀ again, again = CTRL_C_EVENT ∨ again = CTRL_CLOSE_EVENT ∨ again = CTRL_BREAK_EVENT
        ∨ again = CTRL_SHUTDOWN_EVENT →
      consoleCtrlHandler again (consoleCtrlHandler ctrlType s).2
        = (true, (consoleCtrlHandler ctrlType s).2)) ∧
    (consoleCtrlHandler ctrlType (consoleCtrlHandler ctrlType s).2).2
      = (consoleCtrlHandler ctrlType s).2 ∧
    (∀ again, (consoleCtrlHandler again (consoleCtrlHandler ctrlType s).2).2.closed
      = (consoleCtrlHandler ctrlType s).2.closed) := by
  have key : ∀ (t : Nat) (s : ServerState), s.g_running = false →
      s.g_listenSocket = INVALID_SOCKET → (consoleCtrlHandler t s).2 = s := by
    intro t s hr hl
    unfold consoleCtrlHandler
    split
    · rw [if_neg (by simpa using hl)]
      cases s
      simp_all
    · rfl
  by_cases hs : s.g_listenSocket = INVALID_SOCKET
  · have e : consoleCtrlHandler ctrlType s = (true, { s with g_running := false }) := by
      simp [consoleCtrlHandler, h, hs]
    refine ⟨by rw [e], by rw [e], by rw [e]; exact hs, fun hne => absurd hs hne,
      fun _ => by rw [e], ?_, ?_, ?_⟩
    · intro again hagain
      rw [e]
      simp [consoleCtrlHandler, hagain, hs]
    · rw [e]
      exact key ctrlType { s with g_running := false } rfl hs
    · intro again
      rw [e]
      exact congrArg ServerState.closed (key again { s with g_running := false } rfl hs)
  · have e : consoleCtrlHandler ctrlType s =
        (true, { g_running := false, g_listenSocket := INVALID_SOCKET,
                 closed := s.closed ++ [s.g_listenSocket] }) := by
      simp [consoleCtrlHandler, h, hs]
    refine ⟨by rw [e], by rw [e], by rw [e], fun _ => by rw [e], fun h0 => absurd h0 hs,
      ?_, ?_, ?_⟩
    · intro again hagain
      rw [e]
      simp [consoleCtrlHandler, hagain]
    · rw [e]
      exact key ctrlType _ rfl rfl
    · intro again
      rw [e]
      exact congrArg ServerState.closed (key again _ rfl rfl)

/-! ## Lemmas on the listener loop -/

/-- Case analysis following the control flow of the listener loop: each case
gives the run of the loop on the path taken. -/
theorem acceptLoop_cases (motive : List Bool → List SOCKET → LoopRun → Prop)
    (noLoad : ∀ accepts, motive [] accepts { ended := false, trace := [] })
    (stop : ∀ running accepts,
      motive (false :: running) accepts { ended := true, trace := [.load false] })
    (noAccept : ∀ running,
      motive (true :: running) [] { ended := false, trace := [.load true] })
    (noCheck : ∀ c accepts,
      motive [true] (c :: accepts) { ended := false, trace := [.load true, .accept c] })
    (shutdown : ∀ running c accepts,
      motive (true :: false :: running) (c :: accepts)
        { ended := true, trace := [.load true, .accept c, .load false] })
    (noRecheck : ∀ accepts,
      motive [true, true] (INVALID_SOCKET :: accepts)
        { ended := false, trace := [.load true, .accept INVALID_SOCKET, .load true] })
    (shutdownLate : ∀ running accepts,
      motive (true :: true :: false :: running) (INVALID_SOCKET :: accepts)
        { ended := true,
          trace := [.load true, .accept INVALID_SOCKET, .load true, .load false] })
    (failed : ∀ running accepts,
      motive running accepts (acceptLoop running accepts) →
      motive (true :: true :: true :: running) (INVALID_SOCKET :: accepts)
        { ended := (acceptLoop running accepts).ended,
          trace := [.load true, .accept INVALID_SOCKET, .load true, .load true,
                    .log .acceptFailed] ++ (acceptLoop running accepts).trace })
    (spawned : ∀ running c accepts, c ≠ INVALID_SOCKET →
      motive running accepts (acceptLoop running accepts) →
      motive (true :: true :: running) (c :: accepts)
        { ended := (acceptLoop running accepts).ended,
          trace := [.load true, .accept c, .load true, .spawn c]
            ++ (acceptLoop running accepts).trace }) :
    ∀ running accepts, motive running accepts (acceptLoop running accepts) := by
  have bounded : ∀ n running, running.length ≤ n →
      ∀ accepts, motive running accepts (acceptLoop running accepts) := by
    intro n
    induction n with
    | zero =>
      intro running h accepts
      have : running = [] := by simpa using h
      subst this
      simpa [acceptLoop] using noLoad accepts
    | succ n ih =>
      intro running h accepts
      rcases running with _ | ⟨b1, running⟩
      · simpa [acceptLoop] using noLoad accepts
      cases b1 with
      | false => simpa [acceptLoop] using stop running accepts
      | true =>
        rcases accepts with _ | ⟨c, accepts⟩
        · simpa [acceptLoop] using noAccept running
        rcases running with _ | ⟨b2, running⟩
        · simpa [acceptLoop] using noCheck c accepts
        cases b2 with
        | false => simpa [acceptLoop] using shutdown running c accepts
        | true =>
          by_cases hc : c = INVALID_SOCKET
          · subst hc
            rcases running with _ | ⟨b3, running⟩
            · simpa [acceptLoop] using noRecheck accepts
            cases b3 with
            | false => simpa [acceptLoop] using shutdownLate running accepts
            | true =>
              have hlen : running.length ≤ n := by
                simp only [List.length_cons] at h
                omega
              simpa [acceptLoop] using failed running accepts (ih running hlen accepts)
          · have hlen : running.length ≤ n := by
              simp only [List.length_cons] at h
              omega
            have e : acceptLoop (true :: true :: running) (c :: accepts) =
                { ended := (acceptLoop running accepts).ended,
                  trace := [.load true, .accept c, .load true, .spawn c]
                    ++ (acceptLoop running accepts).trace } := by
              rw [acceptLoop.eq_def]
              simp [hc]
            rw [e]
            exact spawned running c accepts hc (ih running hlen accepts)
  intro running accepts
  exact bounded running.length running (le_refl _) accepts

/-- What follows an `accept` in the listener loop.  The script may end there
(the loop is blocked); a load of `g_running` giving `false` ends the loop; an
`INVALID_SOCKET` with `g_running` loaded `true` twice is logged and the loop
goes on from its head; a valid handle with `g_running` loaded `true` is
handed to a new handler thread. -/
theorem acceptLoop_after_accept (running : List Bool) (accepts : List SOCKET) :
    ∀ pre c post, (acceptLoop running accepts).trace = pre ++ MainOp.accept c :: post →
      (post = [] ∧ (acceptLoop running accepts).ended = false) ∨
      (post = [.load false] ∧ (acceptLoop running accepts).ended = true) ∨
      (c = INVALID_SOCKET ∧
        ((post = [.load true] ∧ (acceptLoop running accepts).ended = false) ∨
         (post = [.load true, .load false] ∧ (acceptLoop running accepts).ended = true) ∨
         ∃ running1 accepts1,
           post = .load true :: .load true :: .log .acceptFailed ::
             (acceptLoop running1 accepts1).trace ∧
           (acceptLoop running accepts).ended = (acceptLoop running1 accepts1).ended)) ∨
      (c ≠ INVALID_SOCKET ∧ ∃ post1, post = .load true :: .spawn c :: post1) := by
  revert running accepts
  apply acceptLoop_cases (motive := fun _ _ run =>
    ∀ (pre : List MainOp) (c : SOCKET) (post : List MainOp),
      run.trace = pre ++ MainOp.accept c :: post →
      (post = [] ∧ run.ended = false) ∨
      (post = [MainOp.load false] ∧ run.ended = true) ∨
      (c = INVALID_SOCKET ∧
        ((post = [MainOp.load true] ∧ run.ended = false) ∨
         (post = [MainOp.load true, MainOp.load false] ∧ run.ended = true) ∨
         ∃ (running1 : List Bool) (accepts1 : List SOCKET),
           post = MainOp.load true :: MainOp.load true :: MainOp.log LogLine.acceptFailed ::
             (acceptLoop running1 accepts1).trace ∧
           run.ended = (acceptLoop running1 accepts1).ended)) ∨
      (c ≠ INVALID_SOCKET ∧
        ∃ post1 : List MainOp, post = MainOp.load true :: MainOp.spawn c :: post1))
  · intro accepts pre c post h
    simp at h
  · intro running accepts pre c post h
    rcases pre with _ | ⟨p1, pre⟩ <;> simp at h
  · intro running pre c post h
    rcases pre with _ | ⟨p1, pre⟩ <;> simp at h
  · intro c0 accepts pre c post h
    rcases pre with _ | ⟨p1, _ | ⟨p2, pre⟩⟩ <;> simp at h
    simp [h.2.2]
  · intro running c0 accepts pre c post h
    rcases pre with _ | ⟨p1, _ | ⟨p2, _ | ⟨p3, pre⟩⟩⟩ <;> simp at h
    simp [← h.2.2]
  · intro accepts pre c post h
    rcases pre with _ | ⟨p1, _ | ⟨p2, _ | ⟨p3, pre⟩⟩⟩ <;> simp at h
    simp [← h.2.2, ← h.2.1]
  · intro running accepts pre c post h
    rcases pre with _ | ⟨p1, _ | ⟨p2, _ | ⟨p3, _ | ⟨p4, pre⟩⟩⟩⟩ <;> simp at h
    simp [← h.2.2, ← h.2.1]
  · intro running accepts ih pre c post h
    rcases pre with _ | ⟨p1, _ | ⟨p2, _ | ⟨p3, _ | ⟨p4, _ | ⟨p5, pre⟩⟩⟩⟩⟩ <;> simp at h
    · right
      right
      left
      refine ⟨h.2.1.symm, Or.inr (Or.inr ⟨running, accepts, h.2.2.symm, rfl⟩)⟩
    · exact ih pre c post h.2.2.2.2.2
  · intro running c0 accepts hc ih pre c post h
    rcases pre with _ | ⟨p1, _ | ⟨p2, _ | ⟨p3, _ | ⟨p4, pre⟩⟩⟩⟩ <;> simp at h
    · right
      right
      right
      obtain ⟨_, h1, h2⟩ := h
      subst h1
      exact ⟨hc, _, h2.symm⟩
    · exact ih pre c post h.2.2.2.2

/-- In the listener loop every handler thread is started for the valid handle
that the `accept` just before it returned, after `g_running` was loaded `true`. -/
theorem acceptLoop_before_spawn (running : List Bool) (accepts : List SOCKET) :
    ∀ pre c post, (acceptLoop running accepts).trace = pre ++ MainOp.spawn c :: post →
      c ≠ INVALID_SOCKET ∧ ∃ pre1, pre = pre1 ++ [.accept c, .load true] := by
  revert running accepts
  apply acceptLoop_cases (motive := fun _ _ run =>
    ∀ (pre : List MainOp) (c : SOCKET) (post : List MainOp),
      run.trace = pre ++ MainOp.spawn c :: post →
      c ≠ INVALID_SOCKET ∧
      ∃ pre1 : List MainOp, pre = pre1 ++ [MainOp.accept c, MainOp.load true])
  · intro accepts pre c post h
    simp at h
  · intro running accepts pre c post h
    rcases pre with _ | ⟨p1, pre⟩ <;> simp at h
  · intro running pre c post h
    rcases pre with _ | ⟨p1, pre⟩ <;> simp at h
  · intro c0 accepts pre c post h
    rcases pre with _ | ⟨p1, _ | ⟨p2, pre⟩⟩ <;> simp at h
  · intro running c0 accepts pre c post h
    rcases pre with _ | ⟨p1, _ | ⟨p2, _ | ⟨p3, pre⟩⟩⟩ <;> simp at h
  · intro accepts pre c post h
    rcases pre with _ | ⟨p1, _ | ⟨p2, _ | ⟨p3, pre⟩⟩⟩ <;> simp at h
  · intro running accepts pre c post h
    rcases pre with _ | ⟨p1, _ | ⟨p2, _ | ⟨p3, _ | ⟨p4, pre⟩⟩⟩⟩ <;> simp at h
  · intro running accepts ih pre c post h
    rcases pre with _ | ⟨p1, _ | ⟨p2, _ | ⟨p3, _ | ⟨p4, _ | ⟨p5, pre⟩⟩⟩⟩⟩ <;> simp at h
    obtain ⟨h1, h2, h3, h4, h5, h6⟩ := h
    obtain ⟨hc, pre1, hpre⟩ := ih pre c post h6
    refine ⟨hc, p1 :: p2 :: p3 :: p4 :: p5 :: pre1, ?_⟩
    simp [hpre]
  · intro running c0 accepts hc ih pre c post h
    rcases pre with _ | ⟨p1, _ | ⟨p2, _ | ⟨p3, _ | ⟨p4, pre⟩⟩⟩⟩ <;> simp at h
    · obtain ⟨h1, h2, h3, h4, _⟩ := h
      subst h1 h2 h3 h4
      exact ⟨hc, [.load true], by simp⟩
    · obtain ⟨h1, h2, h3, h4, h5⟩ := h
      obtain ⟨hc1, pre1, hpre⟩ := ih pre c post h5
      refine ⟨hc1, p1 :: p2 :: p3 :: p4 :: pre1, ?_⟩
      simp [hpre]

/-- The listener loop only loads `g_running`, calls `accept`, starts handler
threads and logs accept failures; and it is left only by a load of
`g_running` that gave `false`, which is then its last operation. -/
theorem acceptLoop_ops (running : List Bool) (accepts : List SOCKET) :
    (∀ op ∈ (acceptLoop running accepts).trace,
      (∃ b, op = .load b) ∨ (∃ c, op = .accept c) ∨ (∃ c, op = .spawn c) ∨
        op = .log .acceptFailed) ∧
    ((acceptLoop running accepts).ended = true →
      ∃ pre, (acceptLoop running accepts).trace = pre ++ [.load false]) := by
  revert running accepts
  apply acceptLoop_cases (motive := fun _ _ run =>
    (∀ op ∈ run.trace,
      (∃ b, op = MainOp.load b) ∨ (∃ c, op = MainOp.accept c) ∨ (∃ c, op = MainOp.spawn c) ∨
        op = MainOp.log LogLine.acceptFailed) ∧
    (run.ended = true → ∃ pre : List MainOp, run.trace = pre ++ [MainOp.load false]))
  · intro accepts
    simp
  · intro running accepts
    exact ⟨by simp, fun _ => ⟨[], by simp⟩⟩
  · intro running
    simp
  · intro c accepts
    simp
  · intro running c accepts
    exact ⟨by simp, fun _ => ⟨[.load true, .accept c], by simp⟩⟩
  · intro accepts
    simp
  · intro running accepts
    exact ⟨by simp, fun _ => ⟨[.load true, .accept INVALID_SOCKET, .load true], by simp⟩⟩
  · intro running accepts ih
    refine ⟨?_, ?_⟩
    · intro op hop
      simp only [List.mem_append, List.mem_cons, List.mem_singleton, List.not_mem_nil,
        or_false] at hop
      rcases hop with (h | h | h | h | h) | h
      · exact Or.inl ⟨_, h⟩
      · exact Or.inr (Or.inl ⟨_, h⟩)
      · exact Or.inl ⟨_, h⟩
      · exact Or.inl ⟨_, h⟩
      · exact Or.inr (Or.inr (Or.inr h))
      · exact ih.1 op h
    · intro he
      obtain ⟨pre, hpre⟩ := ih.2 he
      exact ⟨[.load true, .accept INVALID_SOCKET, .load true, .load true,
        .log .acceptFailed] ++ pre, by simp [hpre]⟩
  · intro running c accepts _ ih
    refine ⟨?_, ?_⟩
    · intro op hop
      simp only [List.mem_append, List.mem_cons, List.mem_singleton, List.not_mem_nil,
        or_false] at hop
      rcases hop with (h | h | h | h) | h
      · exact Or.inl ⟨_, h⟩
      · exact Or.inr (Or.inl ⟨_, h⟩)
      · exact Or.inl ⟨_, h⟩
      · exact Or.inr (Or.inr (Or.inl ⟨_, h⟩))
      · exact ih.1 op h
    · intro he
      obtain ⟨pre, hpre⟩ := ih.2 he
      exact ⟨[.load true, .accept c, .load true, .spawn c] ++ pre, by simp [hpre]⟩

/-- After `n` iterations in which `accept` failed while `g_running` was `true`
at every load, the listener loop is at its head again, with `n` failures logged. -/
theorem acceptLoop_failures (n : Nat) (running : List Bool) (accepts : List SOCKET) :
    acceptLoop (List.replicate (3 * n) true ++ running)
        (List.replicate n INVALID_SOCKET ++ accepts) =
      { ended := (acceptLoop running accepts).ended,
        trace := acceptFailures n ++ (acceptLoop running accepts).trace } := by
  induction n with
  | zero => simp [acceptFailures]
  | succ n ih =>
    have e : 3 * (n + 1) = (3 * n) + 1 + 1 + 1 := by ring
    rw [e]
    simp only [List.replicate_succ, List.cons_append] at ih ⊢
    rw [acceptLoop]
    simp only [if_true]
    rw [ih]
    simp [acceptFailures]

/-! ## The listener loop and `main` -/

/-- C6. Accept-failure classification in the listener loop.  Wherever in a
run `accept` returns `INVALID_SOCKET`: if `g_running` is then loaded `false`
(at line 146, or at line 150) the loop is left with no accept-failure line;
if it is loaded `true` at both lines, exactly one accept-failure line is
logged, no handler is started and the loop goes on from its head, where with
`g_running` still `true` it calls `accept` again (the remaining cases are the
script ending, the loop being blocked).  So `n` accept failures in a row
while `g_running` is `true` leave the loop running, for every `n`. -/
theorem acceptLoop_accept_failure (running : List Bool) (accepts : List SOCKET) :
    (∀ pre post,
      (acceptLoop running accepts).trace = pre ++ MainOp.accept INVALID_SOCKET :: post →
      (post = [] ∧ (acceptLoop running accepts).ended = false) ∨
      (post = [.load false] ∧ (acceptLoop running accepts).ended = true) ∨
      (post = [.load true] ∧ (acceptLoop running accepts).ended = false) ∨
      (post = [.load true, .load false] ∧ (acceptLoop running accepts).ended = true) ∨
      ∃ running1 accepts1,
        post = .load true :: .load true :: .log .acceptFailed ::
          (acceptLoop running1 accepts1).trace ∧
        (acceptLoop running accepts).ended = (acceptLoop running1 accepts1).ended) ∧
    acceptLoop (true :: false :: running) (INVALID_SOCKET :: accepts) =
      { ended := true, trace := [.load true, .accept INVALID_SOCKET, .load false] } ∧
    acceptLoop (true :: true :: false :: running) (INVALID_SOCKET :: accepts) =
      { ended := true,
        trace := [.load true, .accept INVALID_SOCKET, .load true, .load false] } ∧
    acceptLoop (true :: true :: true :: running) (INVALID_SOCKET :: accepts) =
      { ended := (acceptLoop running accepts).ended,
        trace := [.load true, .accept INVALID_SOCKET, .load true, .load true,
                  .log .acceptFailed] ++ (acceptLoop running accepts).trace } ∧
    (∀ c, ∃ rest,
      (acceptLoop (true :: running) (c :: accepts)).trace = .load true :: .accept c :: rest) ∧
    (∀ n, acceptLoop (List.replicate (3 * n) true ++ running)
        (List.replicate n INVALID_SOCKET ++ accepts) =
      { ended := (acceptLoop running accepts).ended,
        trace := acceptFailures n ++ (acceptLoop running accepts).trace }) ∧
    (∀ n, (acceptLoop (List.replicate (3 * n) true) (List.replicate n INVALID_SOCKET)).ended
      = false) := by
  refine ⟨?_, by simp [acceptLoop], by simp [acceptLoop], by simp [acceptLoop], ?_, ?_, ?_⟩
  · intro pre post h
    rcases acceptLoop_after_accept running accepts pre INVALID_SOCKET post h with
      h1 | h1 | ⟨_, h1 | h1 | h1⟩ | ⟨h1, _⟩
    · exact Or.inl h1
    · exact Or.inr (Or.inl h1)
    · exact Or.inr (Or.inr (Or.inl h1))
    · exact Or.inr (Or.inr (Or.inr (Or.inl h1)))
    · exact Or.inr (Or.inr (Or.inr (Or.inr h1)))
    · exact absurd rfl h1
  · intro c
    rw [acceptLoop.eq_def]
    simp only
    split <;> (try split) <;> (try split) <;> exact ⟨_, rfl⟩
  · intro n
    exact acceptLoop_failures n running accepts
  · intro n
    have := acceptLoop_failures n [] []
    simp only [List.append_nil] at this
    rw [this]
    simp [acceptLoop]

/-- C7, as stated, fails.  `accept` returns the valid connection `5` while the
shutdown request arrives: `g_running` is loaded `false` at line 146, the loop
is left, `main` logs the shutdown line and returns `0`, and no handler thread
was started for connection `5`. -/
theorem accepted_connection_without_handler :
    main shutdownDuringAccept =
      { exit := some 0,
        trace := [.log .listening, .load true, .accept 5, .load false, .log .shuttingDown] } ∧
    (acceptLoop shutdownDuringAccept.running shutdownDuringAccept.accepts).ended = true ∧
    MainOp.accept 5 ∈ (acceptLoop shutdownDuringAccept.running shutdownDuringAccept.accepts).trace ∧
    (5 : SOCKET) ≠ INVALID_SOCKET ∧
    MainOp.spawn 5 ∉ (acceptLoop shutdownDuringAccept.running shutdownDuringAccept.accepts).trace := by
  decide

/-- C7, amended.  In the listener loop, every `accept` that returns a valid
socket and after which `g_running` is loaded `true` at line 146 is followed at
once by the start of one handler thread for that socket, and every handler
thread is started for the valid socket returned by the `accept` just before
it; when `g_running` is loaded `false` at line 146 the loop is left and no
handler is started for the accepted socket (the remaining case is the script
ending, the loop being blocked). -/
theorem acceptLoop_spawns_accepted (running : List Bool) (accepts : List SOCKET) :
    (∀ pre c post, (acceptLoop running accepts).trace = pre ++ MainOp.accept c :: post →
      c ≠ INVALID_SOCKET →
      (post = [] ∧ (acceptLoop running accepts).ended = false) ∨
      (post = [.load false] ∧ (acceptLoop running accepts).ended = true) ∨
      ∃ post1, post = .load true :: .spawn c :: post1) ∧
    (∀ pre c post, (acceptLoop running accepts).trace = pre ++ MainOp.spawn c :: post →
      c ≠ INVALID_SOCKET ∧ ∃ pre1, pre = pre1 ++ [.accept c, .load true]) := by
  refine ⟨?_, acceptLoop_before_spawn running accepts⟩
  intro pre c post h hc
  rcases acceptLoop_after_accept running accepts pre c post h with
    h1 | h1 | ⟨h1, _⟩ | ⟨_, h1⟩
  · exact Or.inl h1
  · exact Or.inr (Or.inl h1)
  · exact absurd h1 hc
  · exact Or.inr (Or.inr h1)

/-- The handle left in `g_listenSocket` by `consoleCtrlHandler`: reset for a
handled control type, untouched otherwise. -/
theorem consoleCtrlHandler_listenSocket (ctrlType : Nat) (s : ServerState) :
    (consoleCtrlHandler ctrlType s).2.g_listenSocket =
      if ctrlType = CTRL_C_EVENT ∨ ctrlType = CTRL_CLOSE_EVENT ∨ ctrlType = CTRL_BREAK_EVENT
          ∨ ctrlType = CTRL_SHUTDOWN_EVENT
      then INVALID_SOCKET else s.g_listenSocket := by
  unfold consoleCtrlHandler
  by_cases h : ctrlType = CTRL_C_EVENT ∨ ctrlType = CTRL_CLOSE_EVENT
      ∨ ctrlType = CTRL_BREAK_EVENT ∨ ctrlType = CTRL_SHUTDOWN_EVENT
  · by_cases hs : s.g_listenSocket = INVALID_SOCKET
    · simp [h, hs]
    · simp [h, hs]
  · simp [h]

/-- The handle tested at line 110 is `INVALID_SOCKET` exactly when `socket`
returned `INVALID_SOCKET` or a handled control event was delivered between
line 109 and line 110. -/
theorem globalsAtLine110_listenSocket (socket : SOCKET) (ctrlTypes : List Nat) :
    (globalsAtLine110 socket ctrlTypes).g_listenSocket = INVALID_SOCKET ↔
      socket = INVALID_SOCKET ∨
      ∃ ctrlType ∈ ctrlTypes, ctrlType = CTRL_C_EVENT ∨ ctrlType = CTRL_CLOSE_EVENT
        ∨ ctrlType = CTRL_BREAK_EVENT ∨ ctrlType = CTRL_SHUTDOWN_EVENT := by
  have fold : ∀ (ts : List Nat) (s : ServerState),
      (ts.foldl (fun s ctrlType => (consoleCtrlHandler ctrlType s).2) s).g_listenSocket
          = INVALID_SOCKET ↔
        s.g_listenSocket = INVALID_SOCKET ∨
        ∃ ctrlType ∈ ts, ctrlType = CTRL_C_EVENT ∨ ctrlType = CTRL_CLOSE_EVENT
          ∨ ctrlType = CTRL_BREAK_EVENT ∨ ctrlType = CTRL_SHUTDOWN_EVENT := by
    intro ts
    induction ts with
    | nil =>
      intro s
      simp
    | cons t ts ih =>
      intro s
      rw [List.foldl_cons, ih, consoleCtrlHandler_listenSocket]
      by_cases h : t = CTRL_C_EVENT ∨ t = CTRL_CLOSE_EVENT ∨ t = CTRL_BREAK_EVENT
          ∨ t = CTRL_SHUTDOWN_EVENT
      · simp [h]
      · simp [h]
  exact fold ctrlTypes _

/-- Exit status of `main`.  `main` returns a non-zero status if and only if
one of `WSAStartup`, `socket`, `bind` and `listen` fails or a handled control
event is delivered between the store to `g_listenSocket` at line 109 and its
test at line 110; in each of these cases it returns `1` and its whole trace is
one diagnostic (no listening line, no `accept`).  Otherwise it writes no
diagnostic and logs the listening line exactly once, and when the listener
loop ends, which it does only on a load of `g_running` that gave `false`, it
logs the shutdown line exactly once and returns `0` (as long as the loop has
not ended `main` has not returned and has not logged the shutdown line). -/
theorem main_exit_status (env : MainEnv) :
    ((∃ status, (main env).exit = some status ∧ status ≠ 0) ↔
      (env.WSAStartup ≠ 0 ∨ env.socket = INVALID_SOCKET ∨ env.bind = SOCKET_ERROR
        ∨ env.listen = SOCKET_ERROR
        ∨ ∃ ctrlType ∈ env.ctrlTypes, ctrlType = CTRL_C_EVENT ∨ ctrlType = CTRL_CLOSE_EVENT
            ∨ ctrlType = CTRL_BREAK_EVENT ∨ ctrlType = CTRL_SHUTDOWN_EVENT)) ∧
    (env.WSAStartup ≠ 0 → main env = { exit := some 1, trace := [.diag .wsaStartupFailed] }) ∧
    (env.WSAStartup = 0 →
      (globalsAtLine110 env.socket env.ctrlTypes).g_listenSocket = INVALID_SOCKET →
      main env = { exit := some 1, trace := [.diag .socketFailed] }) ∧
    (env.WSAStartup = 0 →
      (globalsAtLine110 env.socket env.ctrlTypes).g_listenSocket ≠ INVALID_SOCKET →
      env.bind = SOCKET_ERROR →
      main env = { exit := some 1, trace := [.diag .bindFailed] }) ∧
    (env.WSAStartup = 0 →
      (globalsAtLine110 env.socket env.ctrlTypes).g_listenSocket ≠ INVALID_SOCKET →
      env.bind ≠ SOCKET_ERROR → env.listen = SOCKET_ERROR →
      main env = { exit := some 1, trace := [.diag .listenFailed] }) ∧
    (env.WSAStartup = 0 →
      (globalsAtLine110 env.socket env.ctrlTypes).g_listenSocket ≠ INVALID_SOCKET →
      env.bind ≠ SOCKET_ERROR → env.listen ≠ SOCKET_ERROR →
      (main env).trace.count (.log .listening) = 1 ∧
      (∀ d, MainOp.diag d ∉ (main env).trace) ∧
      ((acceptLoop env.running env.accepts).ended = true →
        (main env).exit = some 0 ∧ (main env).trace.count (.log .shuttingDown) = 1 ∧
        MainOp.load false ∈ (main env).trace) ∧
      ((acceptLoop env.running env.accepts).ended = false →
        (main env).exit = none ∧ (main env).trace.count (.log .shuttingDown) = 0)) := by
  obtain ⟨hops, hend⟩ := acceptLoop_ops env.running env.accepts
  have hglobal := globalsAtLine110_listenSocket env.socket env.ctrlTypes
  have hno : ∀ op, (∀ b, op ≠ MainOp.load b) → (∀ c, op ≠ MainOp.accept c) →
      (∀ c, op ≠ MainOp.spawn c) → op ≠ MainOp.log LogLine.acceptFailed →
      op ∉ (acceptLoop env.running env.accepts).trace := by
    intro op h1 h2 h3 h4 hmem
    rcases hops op hmem with ⟨b, h⟩ | ⟨c, h⟩ | ⟨c, h⟩ | h
    · exact h1 b h
    · exact h2 c h
    · exact h3 c h
    · exact h4 h
  have hlisten : MainOp.log LogLine.listening ∉ (acceptLoop env.running env.accepts).trace :=
    hno _ (by simp) (by simp) (by simp) (by simp)
  have hshut : MainOp.log LogLine.shuttingDown ∉ (acceptLoop env.running env.accepts).trace :=
    hno _ (by simp) (by simp) (by simp) (by simp)
  have hdiag : ∀ d, MainOp.diag d ∉ (acceptLoop env.running env.accepts).trace :=
    fun d => hno _ (by simp) (by simp) (by simp) (by simp)
  refine ⟨?_, ?_, ?_, ?_, ?_, ?_⟩
  · by_cases h1 : env.WSAStartup = 0
    · by_cases h2 : (globalsAtLine110 env.socket env.ctrlTypes).g_listenSocket
          = INVALID_SOCKET
      · have hr := hglobal.mp h2
        have e : main env = { exit := some 1, trace := [.diag .socketFailed] } := by
          simp [main, h1, h2]
        rw [e]
        constructor
        · intro _
          rcases hr with hr | hr
          · exact Or.inr (Or.inl hr)
          · exact Or.inr (Or.inr (Or.inr (Or.inr hr)))
        · intro _
          exact ⟨1, rfl, by decide⟩
      · have hs : env.socket ≠ INVALID_SOCKET := fun h => h2 (hglobal.mpr (Or.inl h))
        have hc : ¬ ∃ ctrlType ∈ env.ctrlTypes, ctrlType = CTRL_C_EVENT
            ∨ ctrlType = CTRL_CLOSE_EVENT ∨ ctrlType = CTRL_BREAK_EVENT
            ∨ ctrlType = CTRL_SHUTDOWN_EVENT := fun h => h2 (hglobal.mpr (Or.inr h))
        by_cases h3 : env.bind = SOCKET_ERROR
        · simp [main, h1, h2, h3]
        · by_cases h4 : env.listen = SOCKET_ERROR
          · simp [main, h1, h2, h3, h4]
          · have hrhs : ¬ (env.WSAStartup ≠ 0 ∨ env.socket = INVALID_SOCKET
                ∨ env.bind = SOCKET_ERROR ∨ env.listen = SOCKET_ERROR
                ∨ ∃ ctrlType ∈ env.ctrlTypes, ctrlType = CTRL_C_EVENT
                  ∨ ctrlType = CTRL_CLOSE_EVENT ∨ ctrlType = CTRL_BREAK_EVENT
                  ∨ ctrlType = CTRL_SHUTDOWN_EVENT) := by
              rintro (h | h | h | h | h)
              · exact h h1
              · exact hs h
              · exact h3 h
              · exact h4 h
              · exact hc h
            constructor
            · rintro ⟨status, hst, hne⟩
              exfalso
              cases he : (acceptLoop env.running env.accepts).ended <;>
                simp [main, h1, h2, h3, h4, he] at hst
              exact hne hst.symm
            · intro h
              exact absurd h hrhs
    · simp [main, h1]
  · intro h1
    simp [main, h1]
  · intro h1 h2
    simp [main, h1, h2]
  · intro h1 h2 h3
    simp [main, h1, h2, h3]
  · intro h1 h2 h3 h4
    simp [main, h1, h2, h3, h4]
  · intro h1 h2 h3 h4
    cases he : (acceptLoop env.running env.accepts).ended
    · have e : main env =
          { exit := none,
            trace := .log .listening :: (acceptLoop env.running env.accepts).trace } := by
        simp [main, h1, h2, h3, h4, he]
      rw [e]
      refine ⟨?_, ?_, by simp, by simp [List.count_eq_zero_of_not_mem hshut]⟩
      · simp [List.count_cons, List.count_eq_zero_of_not_mem hlisten]
      · intro d
        simpa using hdiag d
    · have e : main env =
          { exit := some 0,
            trace := .log .listening :: (acceptLoop env.running env.accepts).trace
              ++ [.log .shuttingDown] } := by
        simp [main, h1, h2, h3, h4, he]
      rw [e]
      obtain ⟨pre, hpre⟩ := hend he
      refine ⟨?_, ?_, ?_, by simp⟩
      · simp [List.count_cons, List.count_eq_zero_of_not_mem hlisten]
      · intro d
        simpa using hdiag d
      · intro _
        refine ⟨rfl, ?_, ?_⟩
        · simp [List.count_cons, List.count_eq_zero_of_not_mem hshut]
        · simp [hpre]

/-- C9 fails on the code.  All four startup calls succeed, `socket` returning
handle `7`, and a `CTRL_C_EVENT` is delivered between line 109 and line 110:
`consoleCtrlHandler` closes the socket and resets `g_listenSocket`, the test at
line 110 then sees `INVALID_SOCKET`, and `main` writes the `socket()`
diagnostic and returns `1`, without the listening line and without the
shutdown line.  The step machine reaches the same exit under the schedule
`main, main, CTRL_C_EVENT, main, main`.  With the same startup results and the
shutdown request seen only at the first load of `g_running`, `main` logs the
listening line and the shutdown line and returns `0`. -/
theorem shutdown_request_reported_as_socket_failure :
    shutdownDuringStartup.WSAStartup = 0 ∧
    shutdownDuringStartup.socket ≠ INVALID_SOCKET ∧
    shutdownDuringStartup.bind ≠ SOCKET_ERROR ∧
    shutdownDuringStartup.listen ≠ SOCKET_ERROR ∧
    main shutdownDuringStartup = { exit := some 1, trace := [.diag .socketFailed] } ∧
    (run startupOk (initial [])
        [.main, .main, .ctrl CTRL_C_EVENT, .main, .main]).pc = .exited 1 ∧
    (run startupOk (initial []) [.main, .main, .ctrl CTRL_C_EVENT]).st
      = { g_running := false, g_listenSocket := INVALID_SOCKET, closed := [7] } ∧
    main shutdownAfterStartup =
      { exit := some 0, trace := [.log .listening, .load false, .log .shuttingDown] } := by
  decide

/-! ## The listening handle -/

/-- C8 fails on the code.  When `bind` fails, `main` closes the listening
socket at line 127 and leaves its handle in `g_listenSocket`: the stored
handle is present while the socket is closed; a control event delivered before
`main` returns then makes `consoleCtrlHandler` close the same handle a second
time.  The teardown at line 160 leaves the handle in place as well: when the
shutdown request came before the socket was created, `main` closes the socket
at line 160 and a second control event closes it again. -/
theorem listening_handle_closed_twice :
    (run bindFails (initial [])
        [.main, .main, .main, .main, .main, .main, .main]).st
      = { g_running := true, g_listenSocket := 7, closed := [7] } ∧
    (run bindFails (initial [])
        [.main, .main, .main, .main, .main, .main, .main, .ctrl CTRL_C_EVENT]).st
      = { g_running := false, g_listenSocket := INVALID_SOCKET, closed := [7, 7] } ∧
    (run startupOk (initial [])
        [.ctrl CTRL_C_EVENT, .main, .main, .main, .main, .main, .main, .main, .main, .main,
         .main]).st
      = { g_running := false, g_listenSocket := 7, closed := [7] } ∧
    (run startupOk (initial [])
        [.ctrl CTRL_C_EVENT, .main, .main, .main, .main, .main, .main, .main, .main, .main,
         .main, .ctrl CTRL_C_EVENT]).st
      = { g_running := false, g_listenSocket := INVALID_SOCKET, closed := [7, 7] } := by
  decide

/-! ## The statements at concrete runs -/

/-- The postcondition of `sendAll` on five bytes sent by three partial writes. -/
theorem sendAll_postcondition_witness :
    (∀ c ∈ (sendAll [1, 2, 3, 4, 5] 5 [2, 1, 2]).calls, c.WellBehaved) ∧
    (sendAll [1, 2, 3, 4, 5] 5 [2, 1, 2]).result = some true ∧
    acceptedBytes (sendAll [1, 2, 3, 4, 5] 5 [2, 1, 2]).calls
      = List.take (5 : Int).toNat [1, 2, 3, 4, 5] :=
  ⟨by decide, by decide,
    (sendAll_postcondition [1, 2, 3, 4, 5] 5 [2, 1, 2] (by decide)).2.2.2.1 (by decide)⟩

/-- The bound on the number of `send` calls on five bytes sent by three partial writes. -/
theorem sendAll_terminates_in_bounds_witness :
    (∀ c ∈ (sendAll [1, 2, 3, 4, 5] 5 [2, 1, 2, 9]).calls, c.WellBehaved) ∧
    (sendAll [1, 2, 3, 4, 5] 5 [2, 1, 2, 9]).calls.length ≤ (5 : Int).toNat :=
  ⟨by decide, (sendAll_terminates_in_bounds [1, 2, 3, 4, 5] 5 [2, 1, 2, 9] (by decide)).1⟩

/-- Echo fidelity on the run of `helloWorld`: everything received is echoed. -/
theorem clientThread_echo_fidelity_witness :
    (∀ c ∈ sendCalls (clientThread helloWorld).trace, c.WellBehaved) ∧
    (clientThread helloWorld).returned = true ∧
    (∀ c ∈ sendCalls (clientThread helloWorld).trace, c.ret ≠ SOCKET_ERROR ∧ c.ret ≠ 0) ∧
    sentBytes (clientThread helloWorld).trace = recvBytes (clientThread helloWorld).trace :=
  ⟨by decide, by decide, by decide,
    (clientThread_echo_fidelity helloWorld (by decide)).2.1 (by decide) (by decide)⟩

/-- The failing `send` of `brokenPipe` is followed by its error line and `closesocket`. -/
theorem clientThread_fatal_events_witness :
    (clientThread brokenPipe).trace =
      [.log (.clientConnected false), .load true, .recv (.data [104, 101, 108, 108, 111]),
       .send { offset := 0, len := 5, window := [104, 101, 108, 108, 111], ret := 2 }]
      ++ .send { offset := 2, len := 3, window := [108, 108, 111], ret := SOCKET_ERROR }
      :: [.log .sendFailed, .closesocket] ∧
    [ClientOp.log .sendFailed, ClientOp.closesocket] = [.log .sendFailed, .closesocket] :=
  ⟨by decide,
    (clientThread_fatal_events brokenPipe
      [.log (.clientConnected false), .load true, .recv (.data [104, 101, 108, 108, 111]),
       .send { offset := 0, len := 5, window := [104, 101, 108, 108, 111], ret := 2 }]
      [.log .sendFailed, .closesocket]
      (.send { offset := 2, len := 3, window := [108, 108, 111], ret := SOCKET_ERROR })
      (by decide)).2.2 _ rfl (Or.inl rfl)⟩

/-- The run of `helloWorld` returns and closes the socket once. -/
theorem clientThread_closes_once_witness :
    (clientThread helloWorld).returned = true ∧
    (clientThread helloWorld).trace.count .closesocket = 1 :=
  ⟨by decide, ((clientThread_closes_once helloWorld).1 (by decide)).1⟩

/-- A first `CTRL_C_EVENT` closes the listening handle `7`. -/
theorem consoleCtrlHandler_idempotent_witness :
    (CTRL_C_EVENT = CTRL_C_EVENT ∨ CTRL_C_EVENT = CTRL_CLOSE_EVENT
      ∨ CTRL_C_EVENT = CTRL_BREAK_EVENT ∨ CTRL_C_EVENT = CTRL_SHUTDOWN_EVENT) ∧
    (7 : SOCKET) ≠ INVALID_SOCKET ∧
    (consoleCtrlHandler CTRL_C_EVENT
        { g_running := true, g_listenSocket := 7, closed := [] }).2.closed = [] ++ [7] :=
  ⟨Or.inl rfl, by decide,
    (consoleCtrlHandler_idempotent CTRL_C_EVENT
      { g_running := true, g_listenSocket := 7, closed := [] } (Or.inl rfl)).2.2.2.1 (by decide)⟩

/-- The accept failure in the run of `twoClients` is logged and the loop goes on. -/
theorem acceptLoop_accept_failure_witness :
    (acceptLoop twoClients.running twoClients.accepts).trace =
      [.load true, .accept 9, .load true, .spawn 9, .load true]
      ++ .accept INVALID_SOCKET
      :: [.load true, .load true, .log .acceptFailed, .load true, .accept 11, .load true,
          .spawn 11, .load false] ∧
    (([MainOp.load true, .load true, .log .acceptFailed, .load true, .accept 11, .load true,
          .spawn 11, .load false] = [] ∧
        (acceptLoop twoClients.running twoClients.accepts).ended = false) ∨
      ([MainOp.load true, .load true, .log .acceptFailed, .load true, .accept 11, .load true,
          .spawn 11, .load false] = [.load false] ∧
        (acceptLoop twoClients.running twoClients.accepts).ended = true) ∨
      ([MainOp.load true, .load true, .log .acceptFailed, .load true, .accept 11, .load true,
          .spawn 11, .load false] = [.load true] ∧
        (acceptLoop twoClients.running twoClients.accepts).ended = false) ∨
      ([MainOp.load true, .load true, .log .acceptFailed, .load true, .accept 11, .load true,
          .spawn 11, .load false] = [.load true, .load false] ∧
        (acceptLoop twoClients.running twoClients.accepts).ended = true) ∨
      ∃ running1 accepts1,
        [MainOp.load true, .load true, .log .acceptFailed, .load true, .accept 11, .load true,
          .spawn 11, .load false] = .load true :: .load true :: .log .acceptFailed ::
          (acceptLoop running1 accepts1).trace ∧
        (acceptLoop twoClients.running twoClients.accepts).ended
          = (acceptLoop running1 accepts1).ended) :=
  ⟨by decide,
    (acceptLoop_accept_failure twoClients.running twoClients.accepts).1
      [.load true, .accept 9, .load true, .spawn 9, .load true]
      [.load true, .load true, .log .acceptFailed, .load true, .accept 11, .load true,
        .spawn 11, .load false]
      (by decide)⟩

/-- Connection `9` of `twoClients` is handed to a handler thread right after `accept`. -/
theorem acceptLoop_spawns_accepted_witness :
    (acceptLoop twoClients.running twoClients.accepts).trace =
      [.load true] ++ .accept 9
      :: [.load true, .spawn 9, .load true, .accept INVALID_SOCKET, .load true, .load true,
          .log .acceptFailed, .load true, .accept 11, .load true, .spawn 11, .load false] ∧
    (9 : SOCKET) ≠ INVALID_SOCKET ∧
    (([MainOp.load true, .spawn 9, .load true, .accept INVALID_SOCKET, .load true, .load true,
          .log .acceptFailed, .load true, .accept 11, .load true, .spawn 11, .load false] = [] ∧
        (acceptLoop twoClients.running twoClients.accepts).ended = false) ∨
      ([MainOp.load true, .spawn 9, .load true, .accept INVALID_SOCKET, .load true, .load true,
          .log .acceptFailed, .load true, .accept 11, .load true, .spawn 11, .load false]
          = [.load false] ∧
        (acceptLoop twoClients.running twoClients.accepts).ended = true) ∨
      ∃ post1,
        [MainOp.load true, .spawn 9, .load true, .accept INVALID_SOCKET, .load true, .load true,
          .log .acceptFailed, .load true, .accept 11, .load true, .spawn 11, .load false]
          = .load true :: .spawn 9 :: post1) :=
  ⟨by decide, by decide,
    (acceptLoop_spawns_accepted twoClients.running twoClients.accepts).1
      [.load true] 9
      [.load true, .spawn 9, .load true, .accept INVALID_SOCKET, .load true, .load true,
        .log .acceptFailed, .load true, .accept 11, .load true, .spawn 11, .load false]
      (by decide) (by decide)⟩

end EchoServer
